import Mathlib

/-!
Verification of the waves.io terrain core against its specification.

Two shallow embeddings are developed here, both translated directly from the
source:

* the brush engine (`src/unnamed/part_002`, the shape-aware brush module, with
  the terrain grid of `src/unnamed/part_003`), modelled over the exact reals
  `ℝ` — `Math.sqrt` becomes `Real.sqrt`, `Math.cos` becomes `Real.cos`,
  `Math.PI` becomes `Real.pi`;
* the hydraulic erosion simulator (`src/app/simulator/core/erosion.ts`,
  class `ErosionSystem`), modelled over the rationals `ℚ`, with the single
  transcendental `Math.sqrt` (used only to build the per-cell flow velocity)
  abstracted as an explicit function parameter ` sqrtFn : ℚ → ℚ`; theorems that
  depend on it only assume it maps nonnegative inputs to nonnegative outputs,
  which `Math.sqrt` satisfies on the inputs the code feeds it.

Floating point rounding is intentionally idealised to exact arithmetic, as the
specification itself states bit-identical float results are not required.
-/

namespace Waves

/-! ### Generic association-list / batched-update helpers

`TerrainSystem.applyHeightmapChanges` iterates a `Map<number, number>` in
insertion order and writes each entry into the flat heights array.  We model
the map as an association list in insertion order and the write loop as a left
fold of `List.set`. -/

def applyChangesList {α : Type} (hm : List α) (changes : List (ℕ × α)) : List α :=
  changes.foldl (fun acc c => acc.set c.1 c.2) hm


/-! ### Brush engine data model (source: `src/unnamed/part_002`, `part_003`) -/

inductive BrushType
  | raise
  | lower
  | smooth
  | flatten
  | erosion
deriving DecidableEq

inductive BrushShape
  | circle
  | square
  | diamond
  | star
  | line
  | ellipse
deriving DecidableEq

/-- `BrushConfig` from `part_002`.  The TS field `aspectRatio` is renamed to
`aspect` here; `rotation` is in radians. -/
structure BrushConfig where
  radius : ℝ
  strength : ℝ
  type : BrushType
  shape : BrushShape
  aspect : ℝ
  rotation : ℝ

/-- `TerrainConfig` from `part_003` (the noise fields are irrelevant to the
brush/erosion claims and are omitted). -/
structure TerrainConfig where
  size : ℝ
  segments : ℕ
  maxHeight : ℝ
  minHeight : ℝ

/-- `TerrainSystem`: the flat row-major heights array plus its config.  The
Three.js geometry mirror is not part of the logical state. -/
structure Terrain where
  config : TerrainConfig
  heightmap : List ℝ

/-- World x-coordinate of grid column `j`: the PlaneGeometry(size, size, seg,
seg) vertices are laid out uniformly from `-size/2` to `size/2`. -/
noncomputable def vertexX (c : TerrainConfig) (j : ℕ) : ℝ :=
  -c.size / 2 + j * (c.size / c.segments)

/-- World z-coordinate of grid row `i`. -/
noncomputable def vertexZ (c : TerrainConfig) (i : ℕ) : ℝ :=
  -c.size / 2 + i * (c.size / c.segments)

/-- `quadraticFalloff` from `part_002`. -/
noncomputable def quadraticFalloff (distance radius : ℝ) : ℝ :=
  (1 - distance / radius) * (1 - distance / radius)

/-- `cosineFalloff` from `part_002`: `(cos(t·π)+1)·0.5` with `t = d/r`. -/
noncomputable def cosineFalloff (distance radius : ℝ) : ℝ :=
  (Real.cos (distance / radius * Real.pi) + 1) * 0.5

/-- `gaussianFalloff` from `part_002`: `exp(-d²/(2σ²))`, `σ = r/3`. -/
noncomputable def gaussianFalloff (distance radius : ℝ) : ℝ :=
  Real.exp (-(distance * distance) / (2 * (radius / 3) * (radius / 3)))

/-- `calculateBrushDistance` from `part_002`.  `Math.atan2(pz, px)` is the
argument of the complex number `px + pz·i`. -/
noncomputable def calculateBrushDistance (dx dz : ℝ) (shape : BrushShape)
    (radius aspect rotation : ℝ) : ℝ :=
  let px := if rotation ≠ 0 then dx * Real.cos (-rotation) - dz * Real.sin (-rotation) else dx
  let pz := if rotation ≠ 0 then dx * Real.sin (-rotation) + dz * Real.cos (-rotation) else dz
  match shape with
  | .circle => Real.sqrt (px * px + pz * pz) / radius
  | .square => max |px| |pz| / radius
  | .diamond => (|px| + |pz|) / radius
  | .star =>
      let angle := Complex.arg ⟨px, pz⟩
      let distance := Real.sqrt (px * px + pz * pz)
      let starAngle := (angle + Real.pi) / (2 * Real.pi) * 5
      let starRadius := radius * (0.5 + 0.5 * Real.cos (starAngle * Real.pi * 2))
      distance / starRadius
  | .line => |pz| / (radius * 0.1)
  | .ellipse =>
      let rx := radius * max 1 aspect
      let rz := radius * max 1 (1 / aspect)
      Real.sqrt ((px / rx) * (px / rx) + (pz / rz) * (pz / rz))

/-- One cell of a `getHeightmapRegion` result: grid index, current height and
world position, in row-major order. -/
structure RegionCell where
  index : ℕ
  height : ℝ
  posX : ℝ
  posZ : ℝ
deriving Inhabited

/-- Row indices visited by `getHeightmapRegion`'s outer loop: the JS loop runs
`i` from `max(0,⌊cz-g⌋)` to `min(segments,⌈cz+g⌉)`; filtering `0..segments` by
those bounds yields exactly the same index sequence. -/
noncomputable def regionRows (c : TerrainConfig) (centerZ radius : ℝ) : List ℕ :=
  let gridRadius := radius / c.size * c.segments
  let centerGridZ := (centerZ + c.size / 2) / c.size * c.segments
  let minI : ℤ := max 0 ⌊centerGridZ - gridRadius⌋
  let maxI : ℤ := min c.segments ⌈centerGridZ + gridRadius⌉
  (List.range (c.segments + 1)).filter
    (fun (i : ℕ) => decide (minI ≤ (i : ℤ) ∧ (i : ℤ) ≤ maxI))

/-- Column indices visited by `getHeightmapRegion`'s inner loop. -/
noncomputable def regionCols (c : TerrainConfig) (centerX radius : ℝ) : List ℕ :=
  let gridRadius := radius / c.size * c.segments
  let centerGridX := (centerX + c.size / 2) / c.size * c.segments
  let minJ : ℤ := max 0 ⌊centerGridX - gridRadius⌋
  let maxJ : ℤ := min c.segments ⌈centerGridX + gridRadius⌉
  (List.range (c.segments + 1)).filter
    (fun (j : ℕ) => decide (minJ ≤ (j : ℤ) ∧ (j : ℤ) ≤ maxJ))

/-- `TerrainSystem.getHeightmapRegion` from `part_003`: every cell of the
axis-aligned grid box of half-width `gridRadius` around the center, rows and
columns clamped to `[0, segments]`, row-major. -/
noncomputable def getHeightmapRegion (t : Terrain) (centerX centerZ radius : ℝ) :
    List RegionCell :=
  (regionRows t.config centerZ radius).flatMap (fun (i : ℕ) =>
    (regionCols t.config centerX radius).map (fun (j : ℕ) =>
      { index := i * (t.config.segments + 1) + j
        height := t.heightmap.getD (i * (t.config.segments + 1) + j) 0
        posX := vertexX t.config j
        posZ := vertexZ t.config i }))

/-- `TerrainSystem.applyHeightmapChanges` restricted to its logical effect on
the heights array. -/
def applyHeightmapChanges (t : Terrain) (changes : List (ℕ × ℝ)) : Terrain :=
  { t with heightmap := applyChangesList t.heightmap changes }

/-- The per-cell body shared by raise/lower: the shape distance of a region
cell from the brush center. -/
noncomputable def cellDistance (cfg : BrushConfig) (x z : ℝ) (cell : RegionCell) : ℝ :=
  calculateBrushDistance (cell.posX - x) (cell.posZ - z) cfg.shape cfg.radius
    cfg.aspect cfg.rotation

/-- The cosine-falloff blending factor used by every brush:
`cosineFalloff(distance·radius, radius) · strength`. -/
noncomputable def brushFactor (cfg : BrushConfig) (x z : ℝ) (cell : RegionCell) : ℝ :=
  cosineFalloff (cellDistance cfg x z cell * cfg.radius) cfg.radius * cfg.strength

/-- The loop body of `applyRaiseBrush`: the change entry (if any) recorded for
one region cell. -/
noncomputable def raiseCell (cfg : BrushConfig) (x z : ℝ) (cell : RegionCell) :
    Option (ℕ × ℝ) :=
  if cellDistance cfg x z cell ≤ 1 then
    some (cell.index, cell.height + brushFactor cfg x z cell)
  else none

/-- `applyRaiseBrush` from `part_002`. -/
noncomputable def applyRaiseBrush (t : Terrain) (x z : ℝ) (cfg : BrushConfig) : Terrain :=
  applyHeightmapChanges t
    ((getHeightmapRegion t x z cfg.radius).filterMap (raiseCell cfg x z))

/-- The loop body of `applyLowerBrush`. -/
noncomputable def lowerCell (cfg : BrushConfig) (x z : ℝ) (cell : RegionCell) :
    Option (ℕ × ℝ) :=
  if cellDistance cfg x z cell ≤ 1 then
    some (cell.index, cell.height - brushFactor cfg x z cell)
  else none

/-- `applyLowerBrush` from `part_002`. -/
noncomputable def applyLowerBrush (t : Terrain) (x z : ℝ) (cfg : BrushConfig) : Terrain :=
  applyHeightmapChanges t
    ((getHeightmapRegion t x z cfg.radius).filterMap (lowerCell cfg x z))

/-- `applySmoothBrush` from `part_002`: gaussian-weighted neighbourhood average
within `0.3·radius`, blended in by the cosine-falloff factor. -/
noncomputable def applySmoothBrush (t : Terrain) (x z : ℝ) (cfg : BrushConfig) : Terrain :=
  let region := getHeightmapRegion t x z cfg.radius
  let changes := region.filterMap (fun cell =>
    let distance := cellDistance cfg x z cell
    if distance > 1 then none
    else
      let neighborRadius := cfg.radius * 0.3
      let acc := region.foldl (fun acc ncell =>
        let ndx := ncell.posX - cell.posX
        let ndz := ncell.posZ - cell.posZ
        let nDist := Real.sqrt (ndx * ndx + ndz * ndz)
        if nDist ≤ neighborRadius then
          (acc.1 + ncell.height * gaussianFalloff nDist neighborRadius,
           acc.2 + gaussianFalloff nDist neighborRadius)
        else acc) ((0 : ℝ), (0 : ℝ))
      if acc.2 > 0 then
        some (cell.index,
          cell.height + (acc.1 / acc.2 - cell.height) *
            (cosineFalloff (distance * cfg.radius) cfg.radius * cfg.strength))
      else none)
  applyHeightmapChanges t changes

/-- The running `(centerSum, centerCount)` accumulator of `applyFlattenBrush`'s
first loop over the region cells. -/
noncomputable def flattenCenterAcc (x z centerRadius : ℝ) (region : List RegionCell) :
    ℝ × ℕ :=
  region.foldl (fun acc cell =>
    if Real.sqrt ((cell.posX - x) * (cell.posX - x) +
        (cell.posZ - z) * (cell.posZ - z)) ≤ centerRadius then
      (acc.1 + cell.height, acc.2 + 1)
    else acc) ((0 : ℝ), (0 : ℕ))

/-- The flatten brush's target height: unweighted average of the region cells
whose Euclidean distance from the brush center is at most `0.2·radius`
(`applyFlattenBrush`, first loop); `0` when that sub-region is empty. -/
noncomputable def flattenTarget (t : Terrain) (x z : ℝ) (cfg : BrushConfig) : ℝ :=
  if (flattenCenterAcc x z (cfg.radius * 0.2) (getHeightmapRegion t x z cfg.radius)).2 > 0
  then (flattenCenterAcc x z (cfg.radius * 0.2) (getHeightmapRegion t x z cfg.radius)).1 /
    (flattenCenterAcc x z (cfg.radius * 0.2) (getHeightmapRegion t x z cfg.radius)).2
  else 0

/-- The loop body of `applyFlattenBrush`'s second loop, for a given target
height. -/
noncomputable def flattenCell (cfg : BrushConfig) (x z targetHeight : ℝ)
    (cell : RegionCell) : Option (ℕ × ℝ) :=
  if cellDistance cfg x z cell > 1 then none
  else
    some (cell.index,
      cell.height + (targetHeight - cell.height) * brushFactor cfg x z cell)

/-- `applyFlattenBrush` from `part_002`, second loop: blend every in-footprint
cell toward `flattenTarget` by the cosine-falloff factor. -/
noncomputable def applyFlattenBrush (t : Terrain) (x z : ℝ) (cfg : BrushConfig) : Terrain :=
  applyHeightmapChanges t
    ((getHeightmapRegion t x z cfg.radius).filterMap
      (flattenCell cfg x z (flattenTarget t x z cfg)))

/-- One cell of one pass of the fallback erosion brush (`applyErosionBrush`
without an external erosion system): lower the cell toward its steepest
downhill neighbour within `0.15·radius` when the max slope exceeds `0.1`. -/
noncomputable def erosionPassCell (region : List RegionCell) (currentHeights : List ℝ)
    (x z : ℝ) (cfg : BrushConfig) (i : ℕ) : ℝ :=
  let cell := region.getD i default
  let hi := currentHeights.getD i 0
  let distance := cellDistance cfg x z cell
  if distance > 1 then hi
  else
    let neighborRadius := cfg.radius * 0.15
    let maxSlope := (List.range region.length).foldl (fun best j =>
      if i = j then best
      else
        let ncell := region.getD j default
        let ndx := ncell.posX - cell.posX
        let ndz := ncell.posZ - cell.posZ
        let nDist := Real.sqrt (ndx * ndx + ndz * ndz)
        if nDist ≤ neighborRadius ∧ 0 < nDist then
          let slope := (hi - currentHeights.getD j 0) / nDist
          if slope > best then slope else best
        else best) 0
    if maxSlope > 0.1 then
      hi - maxSlope * (cosineFalloff (distance * cfg.radius) cfg.radius * (cfg.strength * 0.3))
    else hi

/-- One pass of the fallback erosion brush over the whole region. -/
noncomputable def erosionPass (region : List RegionCell) (x z : ℝ) (cfg : BrushConfig)
    (currentHeights : List ℝ) : List ℝ :=
  (List.range region.length).map (erosionPassCell region currentHeights x z cfg)

/-- `applyErosionBrush` from `part_002`, fallback path (no erosion system
supplied): three erosion passes, then commit the in-footprint cells. -/
noncomputable def applyErosionBrushFallback (t : Terrain) (x z : ℝ) (cfg : BrushConfig) :
    Terrain :=
  let region := getHeightmapRegion t x z cfg.radius
  let finalHeights := erosionPass region x z cfg
    (erosionPass region x z cfg (erosionPass region x z cfg (region.map RegionCell.height)))
  let changes := (List.range region.length).filterMap (fun i =>
    let cell := region.getD i default
    let distance := cellDistance cfg x z cell
    if distance ≤ 1 then some (cell.index, finalHeights.getD i 0) else none)
  applyHeightmapChanges t changes

/-- `applyErosionBrush` from `part_002`: delegate to an external erosion
system when one is supplied (the dynamically-typed optional parameter),
otherwise run the fallback. -/
noncomputable def applyErosionBrush (t : Terrain) (x z : ℝ) (cfg : BrushConfig)
    (erosionSystem : Option (ℝ → ℝ → ℝ → ℝ → Terrain → Terrain)) : Terrain :=
  match erosionSystem with
  | some applyErosionAt => applyErosionAt x z cfg.radius cfg.strength t
  | none => applyErosionBrushFallback t x z cfg

/-- `applyBrush` from `part_002`: dispatch on the brush type.  Note the source
performs no validation whatsoever on the configuration. -/
noncomputable def applyBrush (t : Terrain) (x z : ℝ) (cfg : BrushConfig)
    (erosionSystem : Option (ℝ → ℝ → ℝ → ℝ → Terrain → Terrain)) : Terrain :=
  match cfg.type with
  | .raise => applyRaiseBrush t x z cfg
  | .lower => applyLowerBrush t x z cfg
  | .smooth => applySmoothBrush t x z cfg
  | .flatten => applyFlattenBrush t x z cfg
  | .erosion => applyErosionBrush t x z cfg erosionSystem

/-! ### Concrete inputs used by witnesses and counterexamples

A 2×2 grid (`segments = 1`, `size = 2`): the four vertices sit at world
coordinates `(±1, ±1)` and the brush center is placed at the corner vertex
`(-1, -1)` (grid index 0). -/

/-- 2×2 terrain, all heights at the configured `maxHeight = 1`. -/
noncomputable def terrainFull : Terrain :=
  { config := { size := 2, segments := 1, maxHeight := 1, minHeight := -1 }
    heightmap := [1, 1, 1, 1] }

/-- A valid raise brush: circle, radius 1/2, strength 1. -/
noncomputable def cfgRaiseSmall : BrushConfig :=
  { radius := 1 / 2, strength := 1, type := .raise, shape := .circle
    aspect := 1, rotation := 0 }

/-- 2×2 terrain with distinct heights for the flatten counterexample. -/
noncomputable def terrainFlat4 : Terrain :=
  { config := { size := 2, segments := 1, maxHeight := 100, minHeight := -100 }
    heightmap := [0, 4, 5, 6] }

/-- A flatten brush of radius 2 and strength 1. -/
noncomputable def cfgFlatten2 : BrushConfig :=
  { radius := 2, strength := 1, type := .flatten, shape := .circle
    aspect := 1, rotation := 0 }

/-- An invalid brush config: ellipse with `aspectRatio = -1 ≤ 0`. -/
noncomputable def cfgBadAspect : BrushConfig :=
  { radius := 1 / 2, strength := 1, type := .raise, shape := .ellipse
    aspect := -1, rotation := 0 }

/-- A flatten brush of radius 3/2 whose center sub-region (radius 0.3) is
empty when the brush is centered at `(0,0)`, between the four grid vertices. -/
noncomputable def cfgFlattenMid : BrushConfig :=
  { radius := 3 / 2, strength := 1, type := .flatten, shape := .circle
    aspect := 1, rotation := 0 }

/-- A small general-purpose 2×2 terrain for witnesses. -/
noncomputable def terrainW : Terrain :=
  { config := { size := 2, segments := 1, maxHeight := 15, minHeight := -5 }
    heightmap := [1, 2, 3, 4] }

/-! ### Hydraulic erosion simulator (source: `src/app/simulator/core/erosion.ts`)

The `ErosionSystem` class is modelled over `ℚ`.  `Math.sqrt` — used only in
the per-cell flow velocity `sqrt(water)·(totalOutflow/4)` — is abstracted as
an explicit parameter `sq : ℚ → ℚ`; theorems only assume it maps nonnegative
inputs to nonnegative outputs.  The console logging and the Three.js geometry
refresh of `step()` have no effect on the logical state and are omitted;
`applyHeightmapChanges` on an empty change set is the identity, so the
`heightChanges.size > 0` guard needs no separate modelling. -/

/-- `ErosionConfig` from `erosion.ts` (the `debugVisualMode` field only selects
a visualization and is omitted). -/
structure ErosionConfig where
  rainfallRate : ℚ
  erosionRate : ℚ
  depositionRate : ℚ
  evaporationRate : ℚ
  maxErosion : ℚ
  minSlopeForFlow : ℚ
  cellSize : ℚ
  depositionThreshold : ℚ
  maxVelocity : ℚ
  minWaterForFlow : ℚ
  debugAggressive : Bool
  capacityConstant : ℚ
  maxSedimentCapacity : ℚ
  flowInertia : ℚ
deriving DecidableEq

/-- `defaultErosionConfig` from `erosion.ts`. -/
def defaultErosionConfig : ErosionConfig :=
  { rainfallRate := 0.01
    erosionRate := 0.3
    depositionRate := 0.3
    evaporationRate := 0.01
    maxErosion := 0.1
    minSlopeForFlow := 0.001
    cellSize := 1
    depositionThreshold := 0.1
    maxVelocity := 10
    minWaterForFlow := 0.0001
    debugAggressive := false
    capacityConstant := 10
    maxSedimentCapacity := 1
    flowInertia := 0.3 }

/-- The per-cell auxiliary fields owned by `ErosionSystem`.  The flat
`Float32Array` of interleaved direction components is represented as a list of
pairs. -/
structure ErosionState where
  waterMap : List ℚ
  sedimentMap : List ℚ
  flowMap : List ℚ
  flowDirectionMap : List (ℚ × ℚ)
  heightDeltaMap : List ℚ
  cumulativeErosionMap : List ℚ
  persistentFlowMap : List ℚ
deriving DecidableEq

/-- The all-zero state allocated by the `ErosionSystem` constructor (and
restored by `reset()`). -/
def ErosionState.init (cellCount : ℕ) : ErosionState :=
  { waterMap := List.replicate cellCount 0
    sedimentMap := List.replicate cellCount 0
    flowMap := List.replicate cellCount 0
    flowDirectionMap := List.replicate cellCount (0, 0)
    heightDeltaMap := List.replicate cellCount 0
    cumulativeErosionMap := List.replicate cellCount 0
    persistentFlowMap := List.replicate cellCount 0 }

/-- One entry of the 4-neighbor list built in `step()`: (N, S, W, E) with
possibly out-of-range row/col (bounds are checked at use sites, as in the
source). -/
structure Neighbor where
  row : ℤ
  col : ℤ
  index : ℤ
  dirX : ℚ
  dirZ : ℚ
deriving DecidableEq

/-- The neighbor records `[N, S, W, E]` for cell `(row, col)`. -/
def neighborsOf (gridSize : ℕ) (row col : ℕ) : List Neighbor :=
  [ { row := (row : ℤ) - 1, col := col, index := ((row : ℤ) - 1) * gridSize + col
      dirX := 0, dirZ := -1 },
    { row := (row : ℤ) + 1, col := col, index := ((row : ℤ) + 1) * gridSize + col
      dirX := 0, dirZ := 1 },
    { row := row, col := (col : ℤ) - 1, index := (row : ℤ) * gridSize + ((col : ℤ) - 1)
      dirX := -1, dirZ := 0 },
    { row := row, col := (col : ℤ) + 1, index := (row : ℤ) * gridSize + ((col : ℤ) + 1)
      dirX := 1, dirZ := 0 } ]

/-- The bounds check `0 ≤ row < gridSize ∧ 0 ≤ col < gridSize`. -/
def nbInBounds (gridSize : ℕ) (nb : Neighbor) : Prop :=
  0 ≤ nb.row ∧ nb.row < (gridSize : ℤ) ∧ 0 ≤ nb.col ∧ nb.col < (gridSize : ℤ)

instance (gridSize : ℕ) (nb : Neighbor) : Decidable (nbInBounds gridSize nb) := by
  unfold nbInBounds
  infer_instance

/-- The (possibly inertia-adjusted) slope pushed for one neighbor during flow
routing: 0 for out-of-bounds neighbors and for slopes at or below
`minSlopeForFlow`, else `slope + dot(prevDir, nbDir)·flowInertia·slope`.  The
source's `if (flowInertia && flowInertia > 0)` truthiness test is exactly
`0 < flowInertia`. -/
def slopeTo (cfg : ErosionConfig) (heights : List ℚ) (gridSize : ℕ) (height : ℚ)
    (prevDir : ℚ × ℚ) (nb : Neighbor) : ℚ :=
  if nbInBounds gridSize nb then
    let slope := (height - heights.getD nb.index.toNat 0) / cfg.cellSize
    if slope > cfg.minSlopeForFlow then
      slope + (if 0 < cfg.flowInertia then
        (prevDir.1 * nb.dirX + prevDir.2 * nb.dirZ) * cfg.flowInertia * slope else 0)
    else 0
  else 0

/-- The double-buffered maps mutated during one `step()`: `newWaterMap`,
`newSedimentMap`, `newFlowDirectionMap` plus the in-place `flowMap`. -/
structure FlowBuffers where
  newWaterMap : List ℚ
  newSedimentMap : List ℚ
  newFlowDirectionMap : List (ℚ × ℚ)
  flowMap : List ℚ
deriving DecidableEq

/-- One iteration of the distribution loop in flow routing: move this
neighbor's share of water (and sediment, carried at the water's flow ratio)
and update the neighbor's flow direction as a weighted average. -/
def distributeStep (gridSize : ℕ) (index : ℕ) (totalOutflow waterAmount sedimentAmount : ℚ)
    (acc : FlowBuffers × ℚ) (p : Neighbor × ℚ) : FlowBuffers × ℚ :=
  let bufs := acc.1
  let waterOutflow := acc.2
  let nb := p.1
  let slope := p.2
  if 0 < slope then
    let flowFrac := slope / totalOutflow
    let flow := waterAmount * flowFrac
    if nbInBounds gridSize nb then
      let nbIdx := nb.index.toNat
      let water1 := bufs.newWaterMap.set nbIdx (bufs.newWaterMap.getD nbIdx 0 + flow)
      let sedFlow := sedimentAmount * flowFrac
      let sed1 := if 0 < waterAmount then
        let sedA := bufs.newSedimentMap.set nbIdx (bufs.newSedimentMap.getD nbIdx 0 + sedFlow)
        sedA.set index (sedA.getD index 0 - sedFlow)
      else bufs.newSedimentMap
      let weight := flow / waterAmount
      let oldDir := bufs.newFlowDirectionMap.getD nbIdx (0, 0)
      let dir1 := bufs.newFlowDirectionMap.set nbIdx
        (oldDir.1 * (1 - weight) + nb.dirX * weight,
         oldDir.2 * (1 - weight) + nb.dirZ * weight)
      ({ newWaterMap := water1, newSedimentMap := sed1, newFlowDirectionMap := dir1
         flowMap := bufs.flowMap }, waterOutflow + flow)
    else acc
  else acc

/-- Flow routing for one cell (`step()` phase 2): skip if the cell's current
water is below `minWaterForFlow`; otherwise compute the four adjusted slopes,
and if their sum is positive distribute water/sediment, deduct the outflow,
set the cell's own direction to the outflow-weighted average and record the
velocity `sq(water)·(totalOutflow/4)`; with no outflow, zero the cell's flow
and direction entries. -/
def flowCell (sq : ℚ → ℚ) (cfg : ErosionConfig) (gridSize : ℕ) (heights : List ℚ)
    (prevDirMap : List (ℚ × ℚ)) (bufs : FlowBuffers) (row col : ℕ) : FlowBuffers :=
  let index := row * gridSize + col
  let waterAmount := bufs.newWaterMap.getD index 0
  let sedimentAmount := bufs.newSedimentMap.getD index 0
  if waterAmount < cfg.minWaterForFlow then bufs
  else
    let height := heights.getD index 0
    let nbrs := neighborsOf gridSize row col
    let prevDir := prevDirMap.getD index (0, 0)
    let slopes := nbrs.map (slopeTo cfg heights gridSize height prevDir)
    let totalOutflow := slopes.sum
    if 0 < totalOutflow then
      let dist := (nbrs.zip slopes).foldl
        (distributeStep gridSize index totalOutflow waterAmount sedimentAmount) (bufs, 0)
      let bufs1 := dist.1
      let waterOutflow := dist.2
      let water2 := bufs1.newWaterMap.set index
        (bufs1.newWaterMap.getD index 0 - waterOutflow)
      let dir2 := if 0 < waterOutflow then
        bufs1.newFlowDirectionMap.set index
          (((nbrs.zip slopes).map
              (fun p => if 0 < p.2 then p.1.dirX * (p.2 / totalOutflow) else 0)).sum,
           ((nbrs.zip slopes).map
              (fun p => if 0 < p.2 then p.1.dirZ * (p.2 / totalOutflow) else 0)).sum)
      else bufs1.newFlowDirectionMap
      { newWaterMap := water2, newSedimentMap := bufs1.newSedimentMap
        newFlowDirectionMap := dir2
        flowMap := bufs1.flowMap.set index (sq waterAmount * (totalOutflow / 4)) }
    else
      { bufs with flowMap := bufs.flowMap.set index 0
                  newFlowDirectionMap := bufs.newFlowDirectionMap.set index (0, 0) }

/-- Row-major enumeration of all `(row, col)` cells, as in the nested loops of
`step()`. -/
def cellList (gridSize : ℕ) : List (ℕ × ℕ) :=
  (List.range gridSize).flatMap (fun row =>
    (List.range gridSize).map (fun col => (row, col)))

/-- `effectiveRainfallRate` (×10 under `debugAggressive`). -/
def effRainfallRate (cfg : ErosionConfig) : ℚ :=
  if cfg.debugAggressive then cfg.rainfallRate * 10 else cfg.rainfallRate

/-- `effectiveErosionRate` (×5 under `debugAggressive`). -/
def effErosionRateOf (cfg : ErosionConfig) : ℚ :=
  if cfg.debugAggressive then cfg.erosionRate * 5 else cfg.erosionRate

/-- `effectiveMaxErosion` (×10 under `debugAggressive`). -/
def effMaxErosionOf (cfg : ErosionConfig) : ℚ :=
  if cfg.debugAggressive then cfg.maxErosion * 10 else cfg.maxErosion

/-- `effectiveEvaporationRate` (forced to 0 under `debugAggressive`). -/
def effEvaporationRate (cfg : ErosionConfig) : ℚ :=
  if cfg.debugAggressive then 0 else cfg.evaporationRate

/-- `step()` phase 1, rainfall: add the effective rainfall rate to every cell
of the water buffer. -/
def rainfallPhase (cfg : ErosionConfig) (waterMap : List ℚ) : List ℚ :=
  waterMap.map (fun w => w + effRainfallRate cfg)

/-- `step()` phase 2 over the whole grid, starting from the freshly copied
buffers (water already rained on). -/
def flowPhase (sq : ℚ → ℚ) (cfg : ErosionConfig) (gridSize : ℕ) (heights : List ℚ)
    (prevDirMap : List (ℚ × ℚ)) (bufs0 : FlowBuffers) : FlowBuffers :=
  (cellList gridSize).foldl
    (fun b rc => flowCell sq cfg gridSize heights prevDirMap b rc.1 rc.2) bufs0

/-- The average positive downhill slope to the in-bounds neighbors used by the
erosion/deposition phase. -/
def avgSlopeAt (cfg : ErosionConfig) (gridSize : ℕ) (heights : List ℚ) (row col : ℕ) : ℚ :=
  let nbrs := neighborsOf gridSize row col
  let height := heights.getD (row * gridSize + col) 0
  let slopeSum := (nbrs.map (fun nb =>
    if nbInBounds gridSize nb then
      max 0 ((height - heights.getD nb.index.toNat 0) / cfg.cellSize)
    else 0)).sum
  let neighborCount := (nbrs.filter (fun nb => decide (nbInBounds gridSize nb))).length
  if 0 < neighborCount then slopeSum / (neighborCount : ℚ) else slopeSum

/-- The mutable state of the erosion/deposition loop: the sediment buffer, the
pending `heightChanges` map (association list in insertion order) and the
`heightDeltaMap` (reset to zero at the start of the step). -/
structure ErodeAcc where
  newSedimentMap : List ℚ
  heightChanges : List (ℕ × ℚ)
  heightDeltaMap : List ℚ
deriving DecidableEq

/-- The sediment-carrying capacity `min(velocity·water·avgSlope·(capacityConstant || 10),
maxSedimentCapacity || 1)` computed per cell in the erosion/deposition phase;
the JS `||`-falsiness defaults are the `= 0` tests. -/
def sedimentCapacityOf (cfg : ErosionConfig) (velocity waterAmount avgSlope : ℚ) : ℚ :=
  min (velocity * waterAmount * avgSlope *
      (if cfg.capacityConstant = 0 then 10 else cfg.capacityConstant))
    (if cfg.maxSedimentCapacity = 0 then 1 else cfg.maxSedimentCapacity)

/-- The erosion amount `min(deficit·effectiveErosionRate, effectiveMaxErosion,
water·velocity·avgSlope·effectiveErosionRate)` of the erode branch. -/
def erosionAmount (effER effME capacity currentSediment waterAmount velocity
    avgSlope : ℚ) : ℚ :=
  min (min ((capacity - currentSediment) * effER) effME)
    (waterAmount * velocity * avgSlope * effER)

/-- Erosion/deposition for one cell (`step()` phase 3): capacity-limited
erosion (clamped at the terrain's `minHeight`) or deposition (clamped at
`maxHeight`), never both; the `capacityConstant || 10` and
`maxSedimentCapacity || 1` JS-falsiness defaults are the `= 0` tests. -/
def erodeCell (cfg : ErosionConfig) (effER effME minHeight maxHeight : ℚ)
    (gridSize : ℕ) (heights water flowMap : List ℚ) (acc : ErodeAcc) (row col : ℕ) :
    ErodeAcc :=
  let index := row * gridSize + col
  let waterAmount := water.getD index 0
  let velocity := flowMap.getD index 0
  let currentSediment := acc.newSedimentMap.getD index 0
  if waterAmount < cfg.minWaterForFlow then acc
  else
    let avgSlope := avgSlopeAt cfg gridSize heights row col
    let sedimentCapacity := sedimentCapacityOf cfg velocity waterAmount avgSlope
    let currentHeight := (acc.heightChanges.lookup index).getD (heights.getD index 0)
    if currentSediment < sedimentCapacity then
      let erosion := erosionAmount effER effME sedimentCapacity currentSediment
        waterAmount velocity avgSlope
      if 0.0001 < erosion then
        { newSedimentMap := acc.newSedimentMap.set index (currentSediment + erosion)
          heightChanges := acc.heightChanges ++ [(index, max (currentHeight - erosion) minHeight)]
          heightDeltaMap := acc.heightDeltaMap.set index (-erosion) }
      else acc
    else if sedimentCapacity < currentSediment then
      let excess := currentSediment - sedimentCapacity
      let deposit := excess * cfg.depositionRate
      if 0.0001 < deposit then
        { newSedimentMap := acc.newSedimentMap.set index (max 0 (currentSediment - deposit))
          heightChanges := acc.heightChanges ++ [(index, min (currentHeight + deposit) maxHeight)]
          heightDeltaMap := acc.heightDeltaMap.set index deposit }
      else acc
    else acc

/-- `step()` phase 3 over the whole grid. -/
def erosionPhase (cfg : ErosionConfig) (effER effME minHeight maxHeight : ℚ)
    (gridSize : ℕ) (heights : List ℚ) (bufs : FlowBuffers) (heightDelta0 : List ℚ) :
    ErodeAcc :=
  (cellList gridSize).foldl
    (fun a rc => erodeCell cfg effER effME minHeight maxHeight gridSize heights
      bufs.newWaterMap bufs.flowMap a rc.1 rc.2)
    { newSedimentMap := bufs.newSedimentMap, heightChanges := []
      heightDeltaMap := heightDelta0 }

/-- `step()` phase 4, evaporation: `water := max(0, water·(1-rate))`. -/
def evaporationPhase (cfg : ErosionConfig) (waterMap : List ℚ) : List ℚ :=
  waterMap.map (fun w => max 0 (w * (1 - effEvaporationRate cfg)))

/-- `step()` phase 4.5: `cumulativeErosionMap += heightDeltaMap`. -/
def updateCumulative (cumulative heightDelta : List ℚ) : List ℚ :=
  List.zipWith (· + ·) cumulative heightDelta

/-- `step()` phase 4.5: decay the persistent flow by 0.95, and where the flow
exceeds 0.01 add a tenth of it, capped at 1. -/
def updatePersistentFlow (persistent flowMap : List ℚ) : List ℚ :=
  List.zipWith (fun pf fl =>
    if 0.01 < fl then min (pf * 0.95 + fl * 0.1) 1 else pf * 0.95)
    persistent flowMap

/-- One full `ErosionSystem.step()` against a terrain with the given height
bounds: returns the updated heightmap and state.  `minHeight`/`maxHeight` are
the bound terrain's configured bounds and `gridSize = segments + 1`. -/
def step (sq : ℚ → ℚ) (cfg : ErosionConfig) (minHeight maxHeight : ℚ) (gridSize : ℕ)
    (heights : List ℚ) (st : ErosionState) : List ℚ × ErosionState :=
  let rained := rainfallPhase cfg st.waterMap
  let bufs := flowPhase sq cfg gridSize heights st.flowDirectionMap
    { newWaterMap := rained, newSedimentMap := st.sedimentMap
      newFlowDirectionMap := st.flowDirectionMap, flowMap := st.flowMap }
  let acc := erosionPhase cfg (effErosionRateOf cfg) (effMaxErosionOf cfg)
    minHeight maxHeight gridSize heights bufs (st.heightDeltaMap.map (fun _ => 0))
  (applyChangesList heights acc.heightChanges,
    { waterMap := evaporationPhase cfg bufs.newWaterMap
      sedimentMap := acc.newSedimentMap
      flowMap := bufs.flowMap
      flowDirectionMap := bufs.newFlowDirectionMap
      heightDeltaMap := acc.heightDeltaMap
      cumulativeErosionMap := updateCumulative st.cumulativeErosionMap acc.heightDeltaMap
      persistentFlowMap := updatePersistentFlow st.persistentFlowMap bufs.flowMap })

/-- `defaultErosionConfig` with the `cellSize` that the `ErosionSystem`
constructor copies from the bound terrain (`size / segments`). -/
def flatTestConfig (cs : ℚ) : ErosionConfig :=
  { defaultErosionConfig with cellSize := cs }

/-- The default erosion config with rainfall switched off, used to isolate
flow routing in the C10 counterexample. -/
def c10cfg : ErosionConfig := { defaultErosionConfig with rainfallRate := 0 }

/-- A 2×2 state with one unit of water on cell (0,0) and nothing anywhere
else.  Heights `[2, 2, 1, 0]` make (0,0) drain south into (1,0), which in turn
drains east into (1,1). -/
def c10st : ErosionState :=
  { waterMap := [1, 0, 0, 0]
    sedimentMap := [0, 0, 0, 0]
    flowMap := [0, 0, 0, 0]
    flowDirectionMap := [(0, 0), (0, 0), (0, 0), (0, 0)]
    heightDeltaMap := [0, 0, 0, 0]
    cumulativeErosionMap := [0, 0, 0, 0]
    persistentFlowMap := [0, 0, 0, 0] }

/-! ### Generic association-list update facts -/

theorem applyChangesList_length {α : Type} (hm : List α) (changes : List (ℕ × α)) :
    (applyChangesList hm changes).length = hm.length := by
  induction changes generalizing hm with
  | nil => rfl
  | cons c cs ih => simpa [applyChangesList, List.foldl_cons] using ih (hm.set c.1 c.2)

theorem getD_set {α : Type} (l : List α) (i k : ℕ) (v d : α) :
    (l.set i v).getD k d = if i = k ∧ i < l.length then v else l.getD k d := by
  by_cases h : i = k ∧ i < l.length
  · obtain ⟨rfl, hlt⟩ := h
    simp [List.getD, List.getElem?_set_self, hlt]
  · push_neg at h
    rcases eq_or_ne i k with rfl | hne
    · have hle : l.length ≤ i := h rfl
      have h1 : l[i]? = none := List.getElem?_eq_none hle
      have h2 : (l.set i v)[i]? = none := by
        apply List.getElem?_eq_none
        simpa using hle
      simp [List.getD, h1, h2, Nat.not_lt.mpr hle]
    · simp [List.getD, List.getElem?_set_ne hne, h, hne]

theorem applyChangesList_getD_of_not_mem {α : Type} (hm : List α)
    (changes : List (ℕ × α)) (k : ℕ) (d : α)
    (hk : k ∉ changes.map Prod.fst) :
    (applyChangesList hm changes).getD k d = hm.getD k d := by
  induction changes generalizing hm with
  | nil => rfl
  | cons c cs ih =>
    simp only [List.map_cons, List.mem_cons] at hk
    push_neg at hk
    rw [applyChangesList, List.foldl_cons]
    have := ih (hm.set c.1 c.2) (by exact hk.2)
    rw [applyChangesList] at this
    rw [this, getD_set]
    simp [Ne.symm hk.1]

theorem applyChangesList_getD_of_mem {α : Type} (hm : List α)
    (changes : List (ℕ × α)) (k : ℕ) (v : α) (d : α)
    (hk : k < hm.length)
    (hnd : (changes.map Prod.fst).Nodup)
    (hv : (k, v) ∈ changes) :
    (applyChangesList hm changes).getD k d = v := by
  induction changes generalizing hm with
  | nil => simp at hv
  | cons c cs ih =>
    simp only [List.map_cons, List.nodup_cons] at hnd
    rw [applyChangesList, List.foldl_cons]
    rcases List.mem_cons.1 hv with rfl | hmem
    · have hnot : (k : ℕ) ∉ cs.map Prod.fst := by simpa using hnd.1
      have := applyChangesList_getD_of_not_mem (hm.set k v) cs k d hnot
      rw [applyChangesList] at this
      rw [this, getD_set]
      simp [hk]
    · have := ih (hm.set c.1 c.2) (by simpa [List.length_set] using hk) hnd.2 hmem
      rw [applyChangesList] at this
      exact this


/-! ### Structure of `getHeightmapRegion` results -/

theorem regionRows_lt (c : TerrainConfig) (cz r : ℝ) (i : ℕ)
    (hi : i ∈ regionRows c cz r) : i < c.segments + 1 := by
  simp only [regionRows, List.mem_filter, List.mem_range] at hi
  exact hi.1

theorem regionCols_lt (c : TerrainConfig) (cx r : ℝ) (j : ℕ)
    (hj : j ∈ regionCols c cx r) : j < c.segments + 1 := by
  simp only [regionCols, List.mem_filter, List.mem_range] at hj
  exact hj.1

theorem regionRows_nodup (c : TerrainConfig) (cz r : ℝ) : (regionRows c cz r).Nodup :=
  (List.nodup_range _).filter _

theorem regionCols_nodup (c : TerrainConfig) (cx r : ℝ) : (regionCols c cx r).Nodup :=
  (List.nodup_range _).filter _

theorem region_cell_shape (t : Terrain) (x z r : ℝ) (c : RegionCell)
    (hc : c ∈ getHeightmapRegion t x z r) :
    ∃ i j : ℕ, i < t.config.segments + 1 ∧ j < t.config.segments + 1 ∧
      c = { index := i * (t.config.segments + 1) + j
            height := t.heightmap.getD (i * (t.config.segments + 1) + j) 0
            posX := vertexX t.config j
            posZ := vertexZ t.config i } := by
  simp only [getHeightmapRegion, List.mem_flatMap, List.mem_map] at hc
  obtain ⟨i, hi, j, hj, rfl⟩ := hc
  exact ⟨i, j, regionRows_lt _ _ _ _ hi, regionCols_lt _ _ _ _ hj, rfl⟩

theorem region_index_lt (t : Terrain) (x z r : ℝ) (c : RegionCell)
    (hc : c ∈ getHeightmapRegion t x z r) :
    c.index < (t.config.segments + 1) * (t.config.segments + 1) := by
  obtain ⟨i, j, hi, hj, rfl⟩ := region_cell_shape t x z r c hc
  calc i * (t.config.segments + 1) + j
      < i * (t.config.segments + 1) + (t.config.segments + 1) := by omega
    _ = (i + 1) * (t.config.segments + 1) := by ring
    _ ≤ (t.config.segments + 1) * (t.config.segments + 1) :=
        Nat.mul_le_mul_right _ hi

theorem region_height_eq (t : Terrain) (x z r : ℝ) (c : RegionCell)
    (hc : c ∈ getHeightmapRegion t x z r) :
    c.height = t.heightmap.getD c.index 0 := by
  obtain ⟨i, j, _, _, rfl⟩ := region_cell_shape t x z r c hc
  rfl

theorem region_index_nodup (t : Terrain) (x z r : ℝ) :
    ((getHeightmapRegion t x z r).map RegionCell.index).Nodup := by
  unfold getHeightmapRegion
  rw [List.map_flatMap]
  simp only [List.map_map]
  rw [List.nodup_flatMap]
  constructor
  · intro i _
    refine List.Nodup.map (fun a b hab => by simpa using hab) ?_
    exact regionCols_nodup _ _ _
  · refine List.Pairwise.imp ?_ (regionRows_nodup t.config z r)
    intro i i' hne a ha ha'
    simp only [List.mem_map, Function.comp] at ha ha'
    obtain ⟨j, hj, hja⟩ := ha
    obtain ⟨j', hj', hja'⟩ := ha'
    apply hne
    have hjlt := regionCols_lt t.config x r j hj
    have hjlt' := regionCols_lt t.config x r j' hj'
    have h1 : a / (t.config.segments + 1) = i := by
      rw [← hja, Nat.add_comm, Nat.add_mul_div_right _ _ (Nat.succ_pos _),
        Nat.div_eq_of_lt hjlt, Nat.zero_add]
    have h2 : a / (t.config.segments + 1) = i' := by
      rw [← hja', Nat.add_comm, Nat.add_mul_div_right _ _ (Nat.succ_pos _),
        Nat.div_eq_of_lt hjlt', Nat.zero_add]
    omega

theorem region_heightmap_update (t : Terrain) (hm' : List ℝ) (x z r : ℝ) :
    getHeightmapRegion { t with heightmap := hm' } x z r =
      (getHeightmapRegion t x z r).map
        (fun c => { c with height := hm'.getD c.index 0 }) := by
  unfold getHeightmapRegion
  rw [List.map_flatMap]
  simp [List.map_map, Function.comp_def]

/-! ### Characterizing batched brush writes -/

theorem filterMap_keys_sublist (l : List RegionCell) (f : RegionCell → Option (ℕ × ℝ))
    (hf : ∀ c p, f c = some p → p.1 = c.index) :
    ((l.filterMap f).map Prod.fst).Sublist (l.map RegionCell.index) := by
  induction l with
  | nil => simp
  | cons c cs ih =>
    rw [List.filterMap_cons]
    cases hfc : f c with
    | none => simpa using ih.cons _
    | some p =>
      have hp : p.1 = c.index := hf c p hfc
      simpa [hp] using ih.cons₂ c.index

theorem applyChanges_filterMap_getD_of_some (hm : List ℝ) (l : List RegionCell)
    (f : RegionCell → Option (ℕ × ℝ))
    (hf : ∀ c p, f c = some p → p.1 = c.index)
    (hnd : (l.map RegionCell.index).Nodup)
    (c : RegionCell) (hc : c ∈ l) (v : ℝ) (hv : f c = some (c.index, v))
    (hlt : c.index < hm.length) :
    (applyChangesList hm (l.filterMap f)).getD c.index 0 = v :=
  applyChangesList_getD_of_mem hm _ c.index v 0 hlt
    ((filterMap_keys_sublist l f hf).nodup hnd)
    (List.mem_filterMap.2 ⟨c, hc, hv⟩)

theorem applyChanges_filterMap_getD_of_none (hm : List ℝ) (l : List RegionCell)
    (f : RegionCell → Option (ℕ × ℝ))
    (hf : ∀ c p, f c = some p → p.1 = c.index)
    (hnd : (l.map RegionCell.index).Nodup)
    (c : RegionCell) (hc : c ∈ l) (hv : f c = none) :
    (applyChangesList hm (l.filterMap f)).getD c.index 0 = hm.getD c.index 0 := by
  apply applyChangesList_getD_of_not_mem
  intro hmem
  obtain ⟨p, hp, hp1⟩ := List.mem_map.1 hmem
  obtain ⟨c', hc', hfc'⟩ := List.mem_filterMap.1 hp
  have h1 : p.1 = c'.index := hf c' p hfc'
  have hcc : c' = c :=
    List.inj_on_of_nodup_map hnd hc' hc (by rw [← h1, hp1])
  rw [hcc, hv] at hfc'
  exact Option.noConfusion hfc'

theorem applyChanges_filterMap_getD_of_not_mem (hm : List ℝ) (l : List RegionCell)
    (f : RegionCell → Option (ℕ × ℝ))
    (hf : ∀ c p, f c = some p → p.1 = c.index)
    (k : ℕ) (hk : k ∉ l.map RegionCell.index) :
    (applyChangesList hm (l.filterMap f)).getD k 0 = hm.getD k 0 := by
  apply applyChangesList_getD_of_not_mem
  intro hmem
  exact hk ((filterMap_keys_sublist l f hf).subset hmem)

/-! ### Raise followed by lower is the identity -/

theorem raiseCell_keys (cfg : BrushConfig) (x z : ℝ) (c : RegionCell) (p : ℕ × ℝ)
    (hp : raiseCell cfg x z c = some p) : p.1 = c.index := by
  unfold raiseCell at hp
  split at hp
  · cases hp
    rfl
  · exact Option.noConfusion hp

theorem lowerCell_keys (cfg : BrushConfig) (x z : ℝ) (c : RegionCell) (p : ℕ × ℝ)
    (hp : lowerCell cfg x z c = some p) : p.1 = c.index := by
  unfold lowerCell at hp
  split at hp
  · cases hp
    rfl
  · exact Option.noConfusion hp

theorem flattenCell_keys (cfg : BrushConfig) (x z tg : ℝ) (c : RegionCell) (p : ℕ × ℝ)
    (hp : flattenCell cfg x z tg c = some p) : p.1 = c.index := by
  unfold flattenCell at hp
  split at hp
  · exact Option.noConfusion hp
  · cases hp
    rfl

/-- Changing a region cell's `height` field changes neither its shape distance
nor the falloff factor; only the recorded base height moves. -/
theorem lowerCell_update (cfg : BrushConfig) (x z h' : ℝ) (c : RegionCell) :
    lowerCell cfg x z { c with height := h' } =
      if cellDistance cfg x z c ≤ 1 then
        some (c.index, h' - brushFactor cfg x z c)
      else none := rfl

theorem raise_then_lower (t : Terrain) (x z : ℝ) (cfg : BrushConfig)
    (hlen : t.heightmap.length =
      (t.config.segments + 1) * (t.config.segments + 1)) :
    (applyLowerBrush (applyRaiseBrush t x z cfg) x z cfg).heightmap = t.heightmap := by
  classical
  set region := getHeightmapRegion t x z cfg.radius with hregion
  set hm' := applyChangesList t.heightmap (region.filterMap (raiseCell cfg x z)) with hhm'
  have hlen' : hm'.length = t.heightmap.length := applyChangesList_length _ _
  set f2 : RegionCell → Option (ℕ × ℝ) :=
    (lowerCell cfg x z) ∘ (fun c => { c with height := hm'.getD c.index 0 }) with hf2
  have hf2_val : ∀ c, f2 c =
      if cellDistance cfg x z c ≤ 1 then
        some (c.index, hm'.getD c.index 0 - brushFactor cfg x z c)
      else none := by
    intro c
    rw [hf2, Function.comp_apply, lowerCell_update]
  have hf2_keys : ∀ c p, f2 c = some p → p.1 = c.index := by
    intro c p hp
    rw [hf2_val] at hp
    split at hp
    · cases hp
      rfl
    · exact Option.noConfusion hp
  have hlower : (applyLowerBrush (applyRaiseBrush t x z cfg) x z cfg).heightmap =
      applyChangesList hm' (region.filterMap f2) := by
    show applyChangesList (applyRaiseBrush t x z cfg).heightmap
        ((getHeightmapRegion (applyRaiseBrush t x z cfg) x z cfg.radius).filterMap
          (lowerCell cfg x z)) = _
    have hr : applyRaiseBrush t x z cfg = { t with heightmap := hm' } := rfl
    rw [hr, region_heightmap_update, List.filterMap_map]
  rw [hlower]
  have hnd := region_index_nodup t x z cfg.radius
  apply List.ext_getElem
  · rw [applyChangesList_length, hlen', hlen]
  · intro k h1 h2
    rw [← List.getD_eq_getElem _ 0 h1, ← List.getD_eq_getElem _ 0 h2]
    by_cases hk : k ∈ region.map RegionCell.index
    · obtain ⟨c, hc, rfl⟩ := List.mem_map.1 hk
      have hclt : c.index < t.heightmap.length := by
        rw [hlen]
        exact region_index_lt t x z cfg.radius c hc
      by_cases hd : cellDistance cfg x z c ≤ 1
      · have hv2 : f2 c = some (c.index, hm'.getD c.index 0 - brushFactor cfg x z c) := by
          rw [hf2_val]
          exact if_pos hd
        have hvr : raiseCell cfg x z c =
            some (c.index, c.height + brushFactor cfg x z c) := by
          unfold raiseCell
          exact if_pos hd
        rw [applyChanges_filterMap_getD_of_some hm' region f2 hf2_keys hnd c hc _ hv2
          (by rw [hlen']; exact hclt)]
        rw [hhm', applyChanges_filterMap_getD_of_some t.heightmap region _
          (raiseCell_keys cfg x z) hnd c hc _ hvr hclt]
        rw [region_height_eq t x z cfg.radius c hc]
        ring
      · have hv2 : f2 c = none := by
          rw [hf2_val]
          exact if_neg hd
        have hvr : raiseCell cfg x z c = none := by
          unfold raiseCell
          exact if_neg hd
        rw [applyChanges_filterMap_getD_of_none hm' region f2 hf2_keys hnd c hc hv2]
        rw [hhm', applyChanges_filterMap_getD_of_none t.heightmap region _
          (raiseCell_keys cfg x z) hnd c hc hvr]
    · rw [applyChanges_filterMap_getD_of_not_mem hm' region f2 hf2_keys k hk]
      rw [hhm', applyChanges_filterMap_getD_of_not_mem t.heightmap region _
        (raiseCell_keys cfg x z) k hk]

/-! ### Claim C7: circle distance -/

/-- Claim C7: for every offset and positive radius, the brush shape distance
for shape = circle with rotation 0 and aspect ratio 1 is exactly the Euclidean
distance `sqrt(dx² + dz²)` divided by the radius. -/
theorem C7_circle_distance (dx dz radius : ℝ) (hr : 0 < radius) :
    calculateBrushDistance dx dz .circle radius 1 0 =
      Real.sqrt (dx * dx + dz * dz) / radius := by
  simp [calculateBrushDistance]

theorem C7_circle_distance_witness :
    (0 : ℝ) < 2 ∧
      calculateBrushDistance 3 4 .circle 2 1 0 = Real.sqrt (3 * 3 + 4 * 4) / 2 :=
  ⟨by norm_num, C7_circle_distance 3 4 2 (by norm_num)⟩

/-! ### Claim C9: raise followed by lower restores the terrain -/

/-- Claim C9: for every terrain state, center and valid brush config, applying
the raise brush and then the lower brush at the same center with the identical
config restores every cell's height exactly — both passes select the same
cells (shape distance is height-independent) and add resp. subtract the same
cosine-falloff × strength delta. -/
theorem C9_raise_lower_inverse (t : Terrain) (x z : ℝ) (cfg : BrushConfig)
    (hlen : t.heightmap.length = (t.config.segments + 1) * (t.config.segments + 1))
    (hr : 0 < cfg.radius) (ha : 0 < cfg.aspect) :
    (applyLowerBrush (applyRaiseBrush t x z cfg) x z cfg).heightmap = t.heightmap :=
  raise_then_lower t x z cfg hlen

theorem C9_raise_lower_inverse_witness :
    terrainW.heightmap.length =
        (terrainW.config.segments + 1) * (terrainW.config.segments + 1) ∧
      (0 : ℝ) < cfgRaiseSmall.radius ∧ (0 : ℝ) < cfgRaiseSmall.aspect ∧
      (applyLowerBrush (applyRaiseBrush terrainW 0 0 cfgRaiseSmall) 0 0
          cfgRaiseSmall).heightmap = terrainW.heightmap :=
  ⟨rfl, by norm_num [cfgRaiseSmall], by norm_num [cfgRaiseSmall],
    C9_raise_lower_inverse terrainW 0 0 cfgRaiseSmall rfl
      (by norm_num [cfgRaiseSmall]) (by norm_num [cfgRaiseSmall])⟩

/-! ### Flatten brush characterization -/

theorem flatten_getD (t : Terrain) (x z : ℝ) (cfg : BrushConfig)
    (hlen : t.heightmap.length = (t.config.segments + 1) * (t.config.segments + 1))
    (c : RegionCell) (hc : c ∈ getHeightmapRegion t x z cfg.radius)
    (hd : cellDistance cfg x z c ≤ 1) :
    (applyFlattenBrush t x z cfg).heightmap.getD c.index 0 =
      c.height + (flattenTarget t x z cfg - c.height) * brushFactor cfg x z c := by
  have hv : flattenCell cfg x z (flattenTarget t x z cfg) c =
      some (c.index,
        c.height + (flattenTarget t x z cfg - c.height) * brushFactor cfg x z c) := by
    unfold flattenCell
    rw [if_neg (not_lt.mpr hd)]
  exact applyChanges_filterMap_getD_of_some t.heightmap _ _
    (flattenCell_keys cfg x z _) (region_index_nodup t x z cfg.radius) c hc _ hv
    (by rw [hlen]; exact region_index_lt t x z cfg.radius c hc)

theorem brushFactor_of_distance_zero (cfg : BrushConfig) (x z : ℝ) (c : RegionCell)
    (h : cellDistance cfg x z c = 0) : brushFactor cfg x z c = cfg.strength := by
  unfold brushFactor cosineFalloff
  rw [h]
  norm_num

/-! ### Claim C8: empty flatten center sub-region falls back to target 0 -/

theorem flattenTarget_of_empty_center (t : Terrain) (x z : ℝ) (cfg : BrushConfig)
    (hempty : ∀ c ∈ getHeightmapRegion t x z cfg.radius,
      ¬ Real.sqrt ((c.posX - x) * (c.posX - x) + (c.posZ - z) * (c.posZ - z)) ≤
        cfg.radius * 0.2) :
    flattenTarget t x z cfg = 0 := by
  unfold flattenTarget
  have hfold : ∀ (l : List RegionCell),
      (∀ c ∈ l, ¬ Real.sqrt ((c.posX - x) * (c.posX - x) +
        (c.posZ - z) * (c.posZ - z)) ≤ cfg.radius * 0.2) →
      flattenCenterAcc x z (cfg.radius * 0.2) l = ((0 : ℝ), (0 : ℕ)) := by
    intro l hl
    induction l with
    | nil => rfl
    | cons c cs ih =>
      rw [flattenCenterAcc, List.foldl_cons, if_neg (hl c (List.mem_cons_self c cs))]
      exact ih (fun c' hc' => hl c' (List.mem_cons_of_mem c hc'))
  rw [hfold _ hempty]
  simp

/-! ### Concrete region evaluations on the 2×2 grids -/

theorem sqrt_four : Real.sqrt 4 = 2 := by
  rw [show (4 : ℝ) = 2 ^ 2 by norm_num, Real.sqrt_sq (by norm_num : (0 : ℝ) ≤ 2)]

theorem two_lt_sqrt_eight : (2 : ℝ) < Real.sqrt 8 := by
  rw [show (2 : ℝ) = Real.sqrt 4 from sqrt_four.symm]
  exact Real.sqrt_lt_sqrt (by norm_num) (by norm_num)

theorem rows_flat4 : regionRows terrainFlat4.config (-1) 2 = [0, 1] := by
  unfold regionRows terrainFlat4
  norm_num
  decide

theorem cols_flat4 : regionCols terrainFlat4.config (-1) 2 = [0, 1] := by
  unfold regionCols terrainFlat4
  norm_num
  decide

theorem region_flat4 : getHeightmapRegion terrainFlat4 (-1) (-1) 2 =
    [⟨0, 0, -1, -1⟩, ⟨1, 4, 1, -1⟩, ⟨2, 5, -1, 1⟩, ⟨3, 6, 1, 1⟩] := by
  unfold getHeightmapRegion
  rw [rows_flat4, cols_flat4]
  simp [vertexX, vertexZ, terrainFlat4, List.getD]
  norm_num

theorem target_flat4 : flattenTarget terrainFlat4 (-1) (-1) cfgFlatten2 = 0 := by
  have h4 : ¬ (Real.sqrt 4 ≤ (2 : ℝ) / 5) := by
    rw [sqrt_four]
    norm_num
  have h8 : ¬ (Real.sqrt 8 ≤ (2 : ℝ) / 5) := by
    intro h
    nlinarith [two_lt_sqrt_eight]
  have hacc : flattenCenterAcc (-1) (-1) (cfgFlatten2.radius * 0.2)
      (getHeightmapRegion terrainFlat4 (-1) (-1) cfgFlatten2.radius) = (0, 1) := by
    rw [show cfgFlatten2.radius = (2 : ℝ) from rfl, region_flat4]
    unfold flattenCenterAcc
    simp only [List.foldl_cons, List.foldl_nil]
    norm_num [h4, h8]
  unfold flattenTarget
  rw [hacc]
  norm_num

theorem flatten_flat4 :
    (applyFlattenBrush terrainFlat4 (-1) (-1) cfgFlatten2).heightmap = [0, 4, 5, 6] := by
  have hd8 : ((1 : ℝ) < Real.sqrt 8 / 2) := by
    rw [lt_div_iff₀ (by norm_num : (0 : ℝ) < 2)]
    nlinarith [two_lt_sqrt_eight]
  unfold applyFlattenBrush applyHeightmapChanges
  rw [show cfgFlatten2.radius = (2 : ℝ) from rfl, region_flat4, target_flat4]
  unfold flattenCell brushFactor cellDistance calculateBrushDistance cosineFalloff
    cfgFlatten2
  simp only [List.filterMap_cons, List.filterMap_nil]
  norm_num [sqrt_four, hd8, Real.cos_pi]
  unfold applyChangesList terrainFlat4
  simp [List.set]

/-! ### Claim C2: flatten with strength 1 -/

/-- Claim C2 counterexample: on the concrete 2×2 grid `terrainFlat4` with the
flatten brush of radius 2 and strength 1 centered at the grid corner
`(-1, -1)`, the cell of index 1 is inside the brush footprint (shape distance
exactly 1), the computed center-average target is 0, yet after the stroke the
cell's height is still 4 — flatten does *not* set every in-footprint cell to
the target; it blends by the cosine falloff factor, which vanishes at shape
distance 1. -/
theorem C2_cex :
    cfgFlatten2.strength = 1 ∧
      (⟨1, 4, 1, -1⟩ : RegionCell) ∈
        getHeightmapRegion terrainFlat4 (-1) (-1) cfgFlatten2.radius ∧
      cellDistance cfgFlatten2 (-1) (-1) ⟨1, 4, 1, -1⟩ ≤ 1 ∧
      flattenTarget terrainFlat4 (-1) (-1) cfgFlatten2 = 0 ∧
      (applyFlattenBrush terrainFlat4 (-1) (-1) cfgFlatten2).heightmap.getD 1 0 = 4 ∧
      (4 : ℝ) ≠ 0 := by
  refine ⟨rfl, ?_, ?_, target_flat4, ?_, by norm_num⟩
  · rw [show cfgFlatten2.radius = (2 : ℝ) from rfl, region_flat4]
    simp
  · unfold cellDistance calculateBrushDistance cfgFlatten2
    norm_num [sqrt_four]
  · rw [flatten_flat4]
    rfl

/-- Claim C2, amended: running flatten once blends every in-footprint cell
toward the center-average target by the cosine-falloff factor
`cosineFalloff(distance·radius, radius)·strength`; with strength 1 only the
cells at shape distance 0 are set exactly to the target, the others keep a
weighted mix of their old height and the target. -/
theorem C2_flatten_blend (t : Terrain) (x z : ℝ) (cfg : BrushConfig)
    (hlen : t.heightmap.length = (t.config.segments + 1) * (t.config.segments + 1))
    (c : RegionCell) (hc : c ∈ getHeightmapRegion t x z cfg.radius)
    (hd : cellDistance cfg x z c ≤ 1) :
    (applyFlattenBrush t x z cfg).heightmap.getD c.index 0 =
        c.height + (flattenTarget t x z cfg - c.height) * brushFactor cfg x z c ∧
      (cellDistance cfg x z c = 0 → cfg.strength = 1 →
        (applyFlattenBrush t x z cfg).heightmap.getD c.index 0 =
          flattenTarget t x z cfg) := by
  refine ⟨flatten_getD t x z cfg hlen c hc hd, fun h0 hs => ?_⟩
  rw [flatten_getD t x z cfg hlen c hc hd, brushFactor_of_distance_zero cfg x z c h0, hs]
  ring

theorem C2_flatten_blend_witness :
    terrainFlat4.heightmap.length =
        (terrainFlat4.config.segments + 1) * (terrainFlat4.config.segments + 1) ∧
      (⟨0, 0, -1, -1⟩ : RegionCell) ∈
        getHeightmapRegion terrainFlat4 (-1) (-1) cfgFlatten2.radius ∧
      cellDistance cfgFlatten2 (-1) (-1) ⟨0, 0, -1, -1⟩ ≤ 1 ∧
      (applyFlattenBrush terrainFlat4 (-1) (-1) cfgFlatten2).heightmap.getD 0 0 =
        0 + (flattenTarget terrainFlat4 (-1) (-1) cfgFlatten2 - 0) *
          brushFactor cfgFlatten2 (-1) (-1) ⟨0, 0, -1, -1⟩ := by
  have hmem : (⟨0, 0, -1, -1⟩ : RegionCell) ∈
      getHeightmapRegion terrainFlat4 (-1) (-1) cfgFlatten2.radius := by
    rw [show cfgFlatten2.radius = (2 : ℝ) from rfl, region_flat4]
    simp
  have hd : cellDistance cfgFlatten2 (-1) (-1) ⟨0, 0, -1, -1⟩ ≤ 1 := by
    unfold cellDistance calculateBrushDistance cfgFlatten2
    norm_num
  exact ⟨rfl, hmem, hd,
    (C2_flatten_blend terrainFlat4 (-1) (-1) cfgFlatten2 rfl ⟨0, 0, -1, -1⟩ hmem hd).1⟩

/-! ### Claim C8: empty flatten center sub-region -/

/-- Claim C8: when no region cell lies within `0.2·radius` of the brush center
(Euclidean distance), flatten uses the fallback target height 0 instead of
raising an error, and still blends every in-footprint cell toward that 0
target. -/
theorem C8_flatten_empty_center (t : Terrain) (x z : ℝ) (cfg : BrushConfig)
    (hlen : t.heightmap.length = (t.config.segments + 1) * (t.config.segments + 1))
    (hempty : ∀ c ∈ getHeightmapRegion t x z cfg.radius,
      ¬ Real.sqrt ((c.posX - x) * (c.posX - x) + (c.posZ - z) * (c.posZ - z)) ≤
        cfg.radius * 0.2) :
    flattenTarget t x z cfg = 0 ∧
      ∀ c ∈ getHeightmapRegion t x z cfg.radius, cellDistance cfg x z c ≤ 1 →
        (applyFlattenBrush t x z cfg).heightmap.getD c.index 0 =
          c.height + (0 - c.height) * brushFactor cfg x z c := by
  have h0 := flattenTarget_of_empty_center t x z cfg hempty
  refine ⟨h0, fun c hc hd => ?_⟩
  rw [flatten_getD t x z cfg hlen c hc hd, h0]

theorem sqrt_two_gt_three_tenths : (3 / 10 : ℝ) < Real.sqrt 2 := by
  nlinarith [Real.sq_sqrt (show (0 : ℝ) ≤ 2 by norm_num), Real.sqrt_nonneg 2]

theorem rows_w_mid : regionRows terrainW.config 0 (3 / 2) = [0, 1] := by
  unfold regionRows terrainW
  norm_num
  decide

theorem cols_w_mid : regionCols terrainW.config 0 (3 / 2) = [0, 1] := by
  unfold regionCols terrainW
  norm_num
  decide

theorem region_w_mid : getHeightmapRegion terrainW 0 0 (3 / 2) =
    [⟨0, 1, -1, -1⟩, ⟨1, 2, 1, -1⟩, ⟨2, 3, -1, 1⟩, ⟨3, 4, 1, 1⟩] := by
  unfold getHeightmapRegion
  rw [rows_w_mid, cols_w_mid]
  simp [vertexX, vertexZ, terrainW, List.getD]
  norm_num

theorem C8_flatten_empty_center_witness :
    terrainW.heightmap.length =
        (terrainW.config.segments + 1) * (terrainW.config.segments + 1) ∧
      (∀ c ∈ getHeightmapRegion terrainW 0 0 cfgFlattenMid.radius,
        ¬ Real.sqrt ((c.posX - 0) * (c.posX - 0) + (c.posZ - 0) * (c.posZ - 0)) ≤
          cfgFlattenMid.radius * 0.2) ∧
      flattenTarget terrainW 0 0 cfgFlattenMid = 0 := by
  have hempty : ∀ c ∈ getHeightmapRegion terrainW 0 0 cfgFlattenMid.radius,
      ¬ Real.sqrt ((c.posX - 0) * (c.posX - 0) + (c.posZ - 0) * (c.posZ - 0)) ≤
        cfgFlattenMid.radius * 0.2 := by
    rw [show cfgFlattenMid.radius = (3 / 2 : ℝ) from rfl, region_w_mid]
    intro c hc
    have h2 := sqrt_two_gt_three_tenths
    fin_cases hc <;> norm_num <;> linarith
  exact ⟨rfl, hempty,
    (C8_flatten_empty_center terrainW 0 0 cfgFlattenMid rfl hempty).1⟩

/-! ### Claim C1: height bounds after brushes (counterexample half) -/

theorem rows_full_small : regionRows terrainFull.config (-1) (1 / 2) = [0, 1] := by
  unfold regionRows terrainFull
  norm_num
  decide

theorem cols_full_small : regionCols terrainFull.config (-1) (1 / 2) = [0, 1] := by
  unfold regionCols terrainFull
  norm_num
  decide

theorem region_full_small : getHeightmapRegion terrainFull (-1) (-1) (1 / 2) =
    [⟨0, 1, -1, -1⟩, ⟨1, 1, 1, -1⟩, ⟨2, 1, -1, 1⟩, ⟨3, 1, 1, 1⟩] := by
  unfold getHeightmapRegion
  rw [rows_full_small, cols_full_small]
  simp [vertexX, vertexZ, terrainFull, List.getD]
  norm_num

theorem raise_full_small :
    (applyBrush terrainFull (-1) (-1) cfgRaiseSmall none).heightmap = [2, 1, 1, 1] := by
  have hd4 : ¬ (Real.sqrt 4 / (1 / 2 : ℝ) ≤ 1) := by
    rw [sqrt_four]
    norm_num
  have hd8 : ¬ (Real.sqrt 8 / (1 / 2 : ℝ) ≤ 1) := by
    rw [not_le, lt_div_iff₀ (by norm_num : (0 : ℝ) < 1 / 2)]
    nlinarith [two_lt_sqrt_eight]
  show (applyRaiseBrush terrainFull (-1) (-1) cfgRaiseSmall).heightmap = _
  unfold applyRaiseBrush applyHeightmapChanges
  rw [show cfgRaiseSmall.radius = (1 / 2 : ℝ) from rfl, region_full_small]
  unfold raiseCell brushFactor cellDistance calculateBrushDistance cosineFalloff
    cfgRaiseSmall
  simp only [List.filterMap_cons, List.filterMap_nil]
  norm_num [hd4, hd8]
  unfold applyChangesList terrainFull
  simp [List.set]

/-- Claim C1 counterexample: on the 2×2 grid `terrainFull`, whose cells all sit
exactly at the configured `maxHeight = 1`, one `applyBrush` call with a
perfectly valid raise config (circle, radius 1/2, strength 1) pushes the
center cell to height 2 > maxHeight: the brush path never clamps to the
configured `[minHeight, maxHeight]` bounds. -/
theorem C1_cex :
    (∀ i < terrainFull.heightmap.length,
      terrainFull.config.minHeight ≤ terrainFull.heightmap.getD i 0 ∧
        terrainFull.heightmap.getD i 0 ≤ terrainFull.config.maxHeight) ∧
      0 < cfgRaiseSmall.radius ∧ 0 < cfgRaiseSmall.aspect ∧
      ¬ ((applyBrush terrainFull (-1) (-1) cfgRaiseSmall none).heightmap.getD 0 0 ≤
          terrainFull.config.maxHeight) := by
  refine ⟨?_, by norm_num [cfgRaiseSmall], by norm_num [cfgRaiseSmall], ?_⟩
  · intro i hi
    unfold terrainFull at hi ⊢
    simp only [List.length_cons, List.length_nil] at hi
    interval_cases i <;> norm_num [List.getD]
  · rw [raise_full_small]
    norm_num [List.getD, terrainFull]

/-! ### Claim C3: no configuration validation in applyBrush -/

theorem rows_w_small : regionRows terrainW.config (-1) (1 / 2) = [0, 1] := by
  unfold regionRows terrainW
  norm_num
  decide

theorem cols_w_small : regionCols terrainW.config (-1) (1 / 2) = [0, 1] := by
  unfold regionCols terrainW
  norm_num
  decide

theorem region_w_small : getHeightmapRegion terrainW (-1) (-1) (1 / 2) =
    [⟨0, 1, -1, -1⟩, ⟨1, 2, 1, -1⟩, ⟨2, 3, -1, 1⟩, ⟨3, 4, 1, 1⟩] := by
  unfold getHeightmapRegion
  rw [rows_w_small, cols_w_small]
  simp [vertexX, vertexZ, terrainW, List.getD]
  norm_num

theorem badAspect_mutates :
    (applyBrush terrainW (-1) (-1) cfgBadAspect none).heightmap = [2, 2, 3, 4] := by
  have h16 : Real.sqrt 16 = 4 := by
    rw [show (16 : ℝ) = 4 ^ 2 by norm_num, Real.sqrt_sq (by norm_num : (0 : ℝ) ≤ 4)]
  have hd16 : ¬ (Real.sqrt 16 ≤ 1) := by
    rw [h16]
    norm_num
  have hd32 : ¬ (Real.sqrt 32 ≤ 1) := by
    rw [not_le]
    nlinarith [Real.sq_sqrt (show (0 : ℝ) ≤ 32 by norm_num), Real.sqrt_nonneg 32]
  show (applyRaiseBrush terrainW (-1) (-1) cfgBadAspect).heightmap = _
  unfold applyRaiseBrush applyHeightmapChanges
  rw [show cfgBadAspect.radius = (1 / 2 : ℝ) from rfl, region_w_small]
  unfold raiseCell brushFactor cellDistance calculateBrushDistance cosineFalloff
    cfgBadAspect
  simp only [List.filterMap_cons, List.filterMap_nil]
  norm_num [hd16, hd32]
  unfold applyChangesList terrainW
  simp [List.set]

/-- Claim C3 counterexample: `applyBrush` performs no configuration
validation.  With the out-of-bounds config `cfgBadAspect`
(`aspectRatio = -1 ≤ 0`, an invalid value by the spec's own definition of
`aspectRatio : float > 0`), the call is not rejected, no error is signalled —
the source has no validation or throw path at all — and the grid *is* mutated:
the center cell's height changes from 1 to 2. -/
theorem C3_cex :
    cfgBadAspect.aspect ≤ 0 ∧
      (applyBrush terrainW (-1) (-1) cfgBadAspect none).heightmap ≠
        terrainW.heightmap := by
  refine ⟨by norm_num [cfgBadAspect], ?_⟩
  rw [badAspect_mutates]
  unfold terrainW
  intro h
  have := List.head_eq_of_cons_eq h
  norm_num at this

/-- With a negative aspect ratio both ellipse semi-axis factors
`max(1, aspect)` and `max(1, 1/aspect)` clamp to 1, so the ellipse distance
degenerates to the circle distance. -/
theorem ellipse_neg_aspect_eq_circle (dx dz radius aspect rotation : ℝ)
    (ha : aspect < 0) (hr : 0 ≤ radius) :
    calculateBrushDistance dx dz .ellipse radius aspect rotation =
      calculateBrushDistance dx dz .circle radius aspect rotation := by
  unfold calculateBrushDistance
  have h1 : max (1 : ℝ) aspect = 1 := max_eq_left (le_of_lt (lt_trans ha one_pos))
  have h2 : max (1 : ℝ) (1 / aspect) = 1 := by
    apply max_eq_left
    have : 1 / aspect < 0 := div_neg_of_pos_of_neg one_pos ha
    linarith
  simp only [h1, h2, mul_one]
  set px := if rotation ≠ 0 then dx * Real.cos (-rotation) - dz * Real.sin (-rotation) else dx
  set pz := if rotation ≠ 0 then dx * Real.sin (-rotation) + dz * Real.cos (-rotation) else dz
  have hsq : (px / radius) * (px / radius) + (pz / radius) * (pz / radius) =
      (px * px + pz * pz) / (radius * radius) := by
    ring
  rw [hsq, Real.sqrt_div (add_nonneg (mul_self_nonneg px) (mul_self_nonneg pz))
    (radius * radius), Real.sqrt_mul_self hr]

/-- Claim C3, amended: `applyBrush` performs no validation whatsoever — an
invalid configuration is executed like any other, and can mutate the grid (see
the counterexample).  In particular a raise stroke with an ellipse shape and a
negative aspect ratio behaves exactly like the circle brush with the same
radius. -/
theorem C3_no_validation (t : Terrain) (x z : ℝ) (cfg : BrushConfig)
    (htype : cfg.type = .raise) (hshape : cfg.shape = .ellipse)
    (ha : cfg.aspect < 0) (hr : 0 ≤ cfg.radius) :
    applyBrush t x z cfg none =
      applyBrush t x z { cfg with shape := .circle } none := by
  have hd : ∀ c : RegionCell,
      cellDistance cfg x z c = cellDistance { cfg with shape := .circle } x z c := by
    intro c
    unfold cellDistance
    show calculateBrushDistance _ _ cfg.shape _ _ _ = _
    rw [hshape]
    exact ellipse_neg_aspect_eq_circle _ _ _ _ _ ha hr
  have hcell : ∀ c : RegionCell,
      raiseCell cfg x z c = raiseCell { cfg with shape := .circle } x z c := by
    intro c
    unfold raiseCell brushFactor
    rw [hd c]
  show applyBrush t x z cfg none = applyBrush t x z { cfg with shape := .circle } none
  unfold applyBrush
  rw [htype]
  show applyRaiseBrush t x z cfg = applyRaiseBrush t x z { cfg with shape := .circle }
  unfold applyRaiseBrush
  rw [List.filterMap_congr (fun c _ => hcell c)]

theorem C3_no_validation_witness :
    cfgBadAspect.type = BrushType.raise ∧ cfgBadAspect.shape = BrushShape.ellipse ∧
      cfgBadAspect.aspect < 0 ∧ (0 : ℝ) ≤ cfgBadAspect.radius ∧
      applyBrush terrainW (-1) (-1) cfgBadAspect none =
        applyBrush terrainW (-1) (-1) { cfgBadAspect with shape := .circle } none :=
  ⟨rfl, rfl, by norm_num [cfgBadAspect], by norm_num [cfgBadAspect],
    C3_no_validation terrainW (-1) (-1) cfgBadAspect rfl rfl
      (by norm_num [cfgBadAspect]) (by norm_num [cfgBadAspect])⟩

/-! ### Generic list facts for the erosion proofs -/

theorem getD_replicate_of_lt {α : Type} (n i : ℕ) (a d : α) (h : i < n) :
    (List.replicate n a).getD i d = a := by
  simp [List.getD, h]

theorem set_replicate_self {α : Type} (m i : ℕ) (a : α) :
    (List.replicate m a).set i a = List.replicate m a := by
  induction m generalizing i with
  | zero => rfl
  | succ k ih => cases i <;> simp [List.replicate_succ, List.set, ih]

theorem idx_lt_sq (n r c : ℕ) (hr : r < n) (hc : c < n) : r * n + c < n * n := by
  calc r * n + c < r * n + n := by omega
    _ = (r + 1) * n := by ring
    _ ≤ n * n := Nat.mul_le_mul_right _ hr

theorem cellList_mem (n : ℕ) (rc : ℕ × ℕ) (h : rc ∈ cellList n) :
    rc.1 < n ∧ rc.2 < n := by
  simp only [cellList, List.mem_flatMap, List.mem_map, List.mem_range] at h
  obtain ⟨r, hr, c, hc, rfl⟩ := h
  exact ⟨hr, hc⟩

theorem int_idx_lt (n : ℕ) (r c : ℤ) (hr0 : 0 ≤ r) (hrn : r < n) (hc0 : 0 ≤ c)
    (hcn : c < n) : 0 ≤ r * n + c ∧ r * n + c < (n : ℤ) * n := by
  constructor
  · have := mul_nonneg hr0 (by positivity : (0 : ℤ) ≤ (n : ℤ))
    omega
  · nlinarith

theorem nb_index_spec (n row col : ℕ) (nb : Neighbor) (hnb : nb ∈ neighborsOf n row col)
    (hin : nbInBounds n nb) : 0 ≤ nb.index ∧ nb.index < (n : ℤ) * n := by
  unfold nbInBounds at hin
  fin_cases hnb <;>
    exact int_idx_lt n _ _ hin.1 hin.2.1 hin.2.2.1 hin.2.2.2

theorem nb_index_toNat (n row col : ℕ) (nb : Neighbor) (hnb : nb ∈ neighborsOf n row col)
    (hin : nbInBounds n nb) :
    ((nb.index.toNat : ℤ) = nb.index) ∧ nb.index.toNat < n * n := by
  obtain ⟨h0, hlt⟩ := nb_index_spec n row col nb hnb hin
  refine ⟨Int.toNat_of_nonneg h0, ?_⟩
  rw [← Int.toNat_of_nonneg h0] at hlt
  exact_mod_cast hlt

/-! ### Claim C6: one step on a perfectly flat field -/

theorem slopeTo_flat (cfg : ErosionConfig) (n : ℕ) (hgt : ℚ) (prevDir : ℚ × ℚ)
    (row col : ℕ) (nb : Neighbor) (hnb : nb ∈ neighborsOf n row col)
    (hms : 0 ≤ cfg.minSlopeForFlow) :
    slopeTo cfg (List.replicate (n * n) hgt) n hgt prevDir nb = 0 := by
  unfold slopeTo
  dsimp only
  split
  · rename_i hin
    obtain ⟨-, hlt⟩ := nb_index_toNat n row col nb hnb hin
    rw [getD_replicate_of_lt _ _ _ _ hlt]
    simp [not_lt.mpr hms]
  · rfl

theorem flowCell_flat (sq : ℚ → ℚ) (cfg : ErosionConfig) (n : ℕ) (hgt : ℚ)
    (prevDirMap : List (ℚ × ℚ)) (w s : List ℚ) (row col : ℕ)
    (hr : row < n) (hc : col < n) (hms : 0 ≤ cfg.minSlopeForFlow) :
    flowCell sq cfg n (List.replicate (n * n) hgt) prevDirMap
      ⟨w, s, List.replicate (n * n) (0, 0), List.replicate (n * n) 0⟩ row col =
      ⟨w, s, List.replicate (n * n) (0, 0), List.replicate (n * n) 0⟩ := by
  unfold flowCell
  dsimp only
  split
  · rfl
  · have hh : (List.replicate (n * n) hgt).getD (row * n + col) 0 = hgt :=
      getD_replicate_of_lt _ _ _ _ (idx_lt_sq n row col hr hc)
    rw [hh]
    have hmap : (neighborsOf n row col).map
        (slopeTo cfg (List.replicate (n * n) hgt) n hgt
          (prevDirMap.getD (row * n + col) (0, 0))) = List.replicate 4 0 := by
      rw [List.eq_replicate_iff]
      refine ⟨by simp [neighborsOf], ?_⟩
      intro b hb
      obtain ⟨nb, hnb, rfl⟩ := List.mem_map.1 hb
      exact slopeTo_flat cfg n hgt _ row col nb hnb hms
    rw [hmap]
    rw [show (List.replicate 4 (0 : ℚ)).sum = 0 by simp]
    rw [if_neg (lt_irrefl 0)]
    rw [set_replicate_self, set_replicate_self]

theorem flowPhase_flat (sq : ℚ → ℚ) (cfg : ErosionConfig) (n : ℕ) (hgt : ℚ)
    (prevDirMap : List (ℚ × ℚ)) (w s : List ℚ) (hms : 0 ≤ cfg.minSlopeForFlow) :
    flowPhase sq cfg n (List.replicate (n * n) hgt) prevDirMap
      ⟨w, s, List.replicate (n * n) (0, 0), List.replicate (n * n) 0⟩ =
      ⟨w, s, List.replicate (n * n) (0, 0), List.replicate (n * n) 0⟩ := by
  unfold flowPhase
  have hgen : ∀ (l : List (ℕ × ℕ)), (∀ rc ∈ l, rc.1 < n ∧ rc.2 < n) →
      l.foldl (fun b rc => flowCell sq cfg n (List.replicate (n * n) hgt) prevDirMap
        b rc.1 rc.2)
        ⟨w, s, List.replicate (n * n) (0, 0), List.replicate (n * n) 0⟩ =
      ⟨w, s, List.replicate (n * n) (0, 0), List.replicate (n * n) 0⟩ := by
    intro l hl
    induction l with
    | nil => rfl
    | cons rc rest ih =>
      rw [List.foldl_cons,
        flowCell_flat sq cfg n hgt prevDirMap w s rc.1 rc.2
          (hl rc (List.mem_cons_self rc rest)).1 (hl rc (List.mem_cons_self rc rest)).2 hms]
      exact ih (fun rc' h' => hl rc' (List.mem_cons_of_mem rc h'))
  exact hgen (cellList n) (fun rc h => cellList_mem n rc h)

theorem avgSlopeAt_flat (cfg : ErosionConfig) (n : ℕ) (hgt : ℚ) (row col : ℕ)
    (hr : row < n) (hc : col < n) :
    avgSlopeAt cfg n (List.replicate (n * n) hgt) row col = 0 := by
  unfold avgSlopeAt
  dsimp only
  have hh : (List.replicate (n * n) hgt).getD (row * n + col) 0 = hgt :=
    getD_replicate_of_lt _ _ _ _ (idx_lt_sq n row col hr hc)
  rw [hh]
  have hmap : (neighborsOf n row col).map (fun nb =>
      if nbInBounds n nb then
        max 0 ((hgt - (List.replicate (n * n) hgt).getD nb.index.toNat 0) / cfg.cellSize)
      else 0) = List.replicate 4 0 := by
    rw [List.eq_replicate_iff]
    refine ⟨by simp [neighborsOf], ?_⟩
    intro b hb
    obtain ⟨nb, hnb, rfl⟩ := List.mem_map.1 hb
    split
    · rename_i hin
      obtain ⟨-, hlt⟩ := nb_index_toNat n row col nb hnb hin
      rw [getD_replicate_of_lt _ _ _ _ hlt]
      simp
    · rfl
  rw [hmap]
  rw [show (List.replicate 4 (0 : ℚ)).sum = 0 by simp]
  split <;> simp

theorem erodeCell_flat (cfg : ErosionConfig) (effER effME minH maxH : ℚ) (n : ℕ)
    (hgt : ℚ) (w : List ℚ) (hc0 : ErodeAcc) (row col : ℕ)
    (hr : row < n) (hc : col < n)
    (hcap : 0 ≤ cfg.maxSedimentCapacity)
    (hsed : hc0.newSedimentMap.getD (row * n + col) 0 = 0)
    (hflow : (List.replicate (n * n) (0 : ℚ)).getD (row * n + col) 0 = 0) :
    erodeCell cfg effER effME minH maxH n (List.replicate (n * n) hgt) w
      (List.replicate (n * n) 0) hc0 row col = hc0 := by
  unfold erodeCell sedimentCapacityOf
  dsimp only
  split
  · rfl
  · rw [hflow, hsed, avgSlopeAt_flat cfg n hgt row col hr hc]
    have hmc : (0 : ℚ) ≤
        (if cfg.maxSedimentCapacity = 0 then 1 else cfg.maxSedimentCapacity) := by
      split
      · norm_num
      · exact hcap
    simp only [zero_mul, mul_zero]
    rw [min_eq_left hmc]
    norm_num

theorem erosionPhase_flat (cfg : ErosionConfig) (effER effME minH maxH : ℚ) (n : ℕ)
    (hgt : ℚ) (w hd0 : List ℚ) (hcap : 0 ≤ cfg.maxSedimentCapacity) :
    erosionPhase cfg effER effME minH maxH n (List.replicate (n * n) hgt)
      ⟨w, List.replicate (n * n) 0, List.replicate (n * n) (0, 0),
        List.replicate (n * n) 0⟩ hd0 =
      ⟨List.replicate (n * n) 0, [], hd0⟩ := by
  unfold erosionPhase
  have hgen : ∀ (l : List (ℕ × ℕ)), (∀ rc ∈ l, rc.1 < n ∧ rc.2 < n) →
      l.foldl (fun a rc => erodeCell cfg effER effME minH maxH n
        (List.replicate (n * n) hgt) w (List.replicate (n * n) 0) a rc.1 rc.2)
        ⟨List.replicate (n * n) 0, [], hd0⟩ =
      ⟨List.replicate (n * n) 0, [], hd0⟩ := by
    intro l hl
    induction l with
    | nil => rfl
    | cons rc rest ih =>
      rw [List.foldl_cons, erodeCell_flat cfg effER effME minH maxH n hgt w _ rc.1 rc.2
        (hl rc (List.mem_cons_self rc rest)).1 (hl rc (List.mem_cons_self rc rest)).2 hcap
        (by
          by_cases hlt : rc.1 * n + rc.2 < n * n
          · exact getD_replicate_of_lt _ _ _ _ hlt
          · simp [List.getD, Nat.not_lt.mpr (Nat.not_lt.mp hlt), List.get?_eq_getElem?,
              List.getElem?_replicate, hlt])
        (by
          by_cases hlt : rc.1 * n + rc.2 < n * n
          · exact getD_replicate_of_lt _ _ _ _ hlt
          · simp [List.getD, List.get?_eq_getElem?, List.getElem?_replicate, hlt])]
      exact ih (fun rc' h' => hl rc' (List.mem_cons_of_mem rc h'))
  exact hgen (cellList n) (fun rc h => cellList_mem n rc h)

/-- Claim C6: on a perfectly flat height field with zero initial water and
sediment, one `step()` with `rainfallRate = 0.01` and all other rates at their
defaults (exactly `defaultErosionConfig`, whose rainfall rate *is* 0.01, with
the terrain-derived cell size) gives every cell water exactly 0.01 before flow
routing, routes nothing (no slope exceeds `minSlopeForFlow`), changes no
height, and ends with every cell's water equal to `0.01 · (1 − 0.01)`. -/
theorem C6_flat_step (sq : ℚ → ℚ) (cs : ℚ) (n : ℕ) (hgt minH maxH : ℚ) :
    rainfallPhase (flatTestConfig cs) (ErosionState.init (n * n)).waterMap =
        List.replicate (n * n) 0.01 ∧
      flowPhase sq (flatTestConfig cs) n (List.replicate (n * n) hgt)
          (List.replicate (n * n) (0, 0))
          ⟨List.replicate (n * n) 0.01, List.replicate (n * n) 0,
            List.replicate (n * n) (0, 0), List.replicate (n * n) 0⟩ =
        ⟨List.replicate (n * n) 0.01, List.replicate (n * n) 0,
          List.replicate (n * n) (0, 0), List.replicate (n * n) 0⟩ ∧
      (step sq (flatTestConfig cs) minH maxH n (List.replicate (n * n) hgt)
          (ErosionState.init (n * n))).1 = List.replicate (n * n) hgt ∧
      (step sq (flatTestConfig cs) minH maxH n (List.replicate (n * n) hgt)
          (ErosionState.init (n * n))).2.waterMap =
        List.replicate (n * n) (0.01 * (1 - 0.01)) := by
  have hrain : rainfallPhase (flatTestConfig cs) (List.replicate (n * n) 0) =
      List.replicate (n * n) 0.01 := by
    unfold rainfallPhase effRainfallRate flatTestConfig defaultErosionConfig
    norm_num [List.map_replicate]
  have hms : (0 : ℚ) ≤ (flatTestConfig cs).minSlopeForFlow := by
    norm_num [flatTestConfig, defaultErosionConfig]
  have hcap : (0 : ℚ) ≤ (flatTestConfig cs).maxSedimentCapacity := by
    norm_num [flatTestConfig, defaultErosionConfig]
  have hflow := flowPhase_flat sq (flatTestConfig cs) n hgt
    (List.replicate (n * n) (0, 0)) (List.replicate (n * n) 0.01)
    (List.replicate (n * n) 0) hms
  have hero := erosionPhase_flat (flatTestConfig cs) (effErosionRateOf (flatTestConfig cs))
    (effMaxErosionOf (flatTestConfig cs)) minH maxH n hgt
    (List.replicate (n * n) 0.01)
    ((List.replicate (n * n) (0 : ℚ)).map (fun _ => 0)) hcap
  have hstep : step sq (flatTestConfig cs) minH maxH n (List.replicate (n * n) hgt)
      (ErosionState.init (n * n)) =
      (List.replicate (n * n) hgt,
        { waterMap := evaporationPhase (flatTestConfig cs) (List.replicate (n * n) 0.01)
          sedimentMap := List.replicate (n * n) 0
          flowMap := List.replicate (n * n) 0
          flowDirectionMap := List.replicate (n * n) (0, 0)
          heightDeltaMap := (List.replicate (n * n) (0 : ℚ)).map (fun _ => 0)
          cumulativeErosionMap := updateCumulative (List.replicate (n * n) 0)
            ((List.replicate (n * n) (0 : ℚ)).map (fun _ => 0))
          persistentFlowMap := updatePersistentFlow (List.replicate (n * n) 0)
            (List.replicate (n * n) 0) }) := by
    unfold step ErosionState.init
    dsimp only
    rw [hrain, hflow, hero]
    rfl
  refine ⟨?_, hflow, ?_, ?_⟩
  · show rainfallPhase (flatTestConfig cs) (List.replicate (n * n) 0) = _
    exact hrain
  · rw [hstep]
  · rw [hstep]
    show evaporationPhase (flatTestConfig cs) (List.replicate (n * n) 0.01) = _
    unfold evaporationPhase effEvaporationRate flatTestConfig defaultErosionConfig
    norm_num [List.map_replicate]

/-! ### Claim C10: the `minWaterForFlow` skip -/

theorem C10_aux1 : rainfallPhase c10cfg [1, 0, 0, 0] = [1, 0, 0, 0] := by
  norm_num [rainfallPhase, c10cfg, defaultErosionConfig, effRainfallRate]

set_option maxHeartbeats 2000000 in
theorem C10_c00 : flowCell (fun _ => 0) c10cfg 2 [2, 2, 1, 0]
    [(0, 0), (0, 0), (0, 0), (0, 0)]
    ⟨[1, 0, 0, 0], [0, 0, 0, 0], [(0, 0), (0, 0), (0, 0), (0, 0)], [0, 0, 0, 0]⟩ 0 0 =
    ⟨[0, 0, 1, 0], [0, 0, 0, 0], [(0, 1), (0, 0), (0, 1), (0, 0)], [0, 0, 0, 0]⟩ := by
  norm_num [flowCell, c10cfg, defaultErosionConfig, neighborsOf, nbInBounds, slopeTo,
    distributeStep, List.set, List.getD, Int.toNat]

theorem C10_c01 : flowCell (fun _ => 0) c10cfg 2 [2, 2, 1, 0]
    [(0, 0), (0, 0), (0, 0), (0, 0)]
    ⟨[0, 0, 1, 0], [0, 0, 0, 0], [(0, 1), (0, 0), (0, 1), (0, 0)], [0, 0, 0, 0]⟩ 0 1 =
    ⟨[0, 0, 1, 0], [0, 0, 0, 0], [(0, 1), (0, 0), (0, 1), (0, 0)], [0, 0, 0, 0]⟩ := by
  unfold flowCell
  dsimp only
  rw [if_pos]
  norm_num [List.getD, c10cfg, defaultErosionConfig]

set_option maxHeartbeats 2000000 in
theorem C10_c10 : flowCell (fun _ => 0) c10cfg 2 [2, 2, 1, 0]
    [(0, 0), (0, 0), (0, 0), (0, 0)]
    ⟨[0, 0, 1, 0], [0, 0, 0, 0], [(0, 1), (0, 0), (0, 1), (0, 0)], [0, 0, 0, 0]⟩ 1 0 =
    ⟨[0, 0, 0, 1], [0, 0, 0, 0], [(0, 1), (0, 0), (1, 0), (1, 0)], [0, 0, 0, 0]⟩ := by
  norm_num [flowCell, c10cfg, defaultErosionConfig, neighborsOf, nbInBounds, slopeTo,
    distributeStep, List.set, List.getD, Int.toNat]

set_option maxHeartbeats 2000000 in
theorem C10_c11 : flowCell (fun _ => 0) c10cfg 2 [2, 2, 1, 0]
    [(0, 0), (0, 0), (0, 0), (0, 0)]
    ⟨[0, 0, 0, 1], [0, 0, 0, 0], [(0, 1), (0, 0), (1, 0), (1, 0)], [0, 0, 0, 0]⟩ 1 1 =
    ⟨[0, 0, 0, 1], [0, 0, 0, 0], [(0, 1), (0, 0), (1, 0), (0, 0)], [0, 0, 0, 0]⟩ := by
  norm_num [flowCell, c10cfg, defaultErosionConfig, neighborsOf, nbInBounds, slopeTo,
    distributeStep, List.set, List.getD, Int.toNat]

theorem C10_flow : flowPhase (fun _ => 0) c10cfg 2 [2, 2, 1, 0]
    [(0, 0), (0, 0), (0, 0), (0, 0)]
    ⟨[1, 0, 0, 0], [0, 0, 0, 0], [(0, 0), (0, 0), (0, 0), (0, 0)], [0, 0, 0, 0]⟩ =
    ⟨[0, 0, 0, 1], [0, 0, 0, 0], [(0, 1), (0, 0), (1, 0), (0, 0)], [0, 0, 0, 0]⟩ := by
  have hcl : cellList 2 = [(0, 0), (0, 1), (1, 0), (1, 1)] := by decide
  unfold flowPhase
  rw [hcl]
  simp only [List.foldl_cons, List.foldl_nil]
  rw [C10_c00, C10_c01, C10_c10, C10_c11]

theorem C10_eskip (effER effME : ℚ) (row col : ℕ) (acc : ErodeAcc)
    (h : ([0, 0, 0, 1] : List ℚ).getD (row * 2 + col) 0 = 0) :
    erodeCell c10cfg effER effME (-5) 15 2 [2, 2, 1, 0] [0, 0, 0, 1] [0, 0, 0, 0]
      acc row col = acc := by
  unfold erodeCell
  dsimp only
  rw [if_pos]
  rw [h]
  norm_num [c10cfg, defaultErosionConfig]

set_option maxHeartbeats 4000000 in
theorem C10_e11 :
    erodeCell c10cfg (effErosionRateOf c10cfg) (effMaxErosionOf c10cfg) (-5) 15 2
      [2, 2, 1, 0] [0, 0, 0, 1] [0, 0, 0, 0]
      ⟨[0, 0, 0, 0], [], [0, 0, 0, 0]⟩ 1 1 = ⟨[0, 0, 0, 0], [], [0, 0, 0, 0]⟩ := by
  norm_num [erodeCell, sedimentCapacityOf, erosionAmount, avgSlopeAt,
    effErosionRateOf, effMaxErosionOf, c10cfg, defaultErosionConfig, neighborsOf,
    nbInBounds, List.getD, Int.toNat]

theorem C10_erosion :
    erosionPhase c10cfg (effErosionRateOf c10cfg) (effMaxErosionOf c10cfg) (-5) 15 2
      [2, 2, 1, 0]
      ⟨[0, 0, 0, 1], [0, 0, 0, 0], [(0, 1), (0, 0), (1, 0), (0, 0)], [0, 0, 0, 0]⟩
      [0, 0, 0, 0] =
    ⟨[0, 0, 0, 0], [], [0, 0, 0, 0]⟩ := by
  have hcl : cellList 2 = [(0, 0), (0, 1), (1, 0), (1, 1)] := by decide
  unfold erosionPhase
  rw [hcl]
  simp only [List.foldl_cons, List.foldl_nil]
  rw [C10_eskip _ _ 0 0 _ (by norm_num [List.getD]),
    C10_eskip _ _ 0 1 _ (by norm_num [List.getD]),
    C10_eskip _ _ 1 0 _ (by norm_num [List.getD]), C10_e11]

theorem C10_evap : evaporationPhase c10cfg [0, 0, 0, 1] = [0, 0, 0, 99 / 100] := by
  norm_num [evaporationPhase, effEvaporationRate, c10cfg, defaultErosionConfig]

theorem C10_step : step (fun _ => 0) c10cfg (-5) 15 2 [2, 2, 1, 0] c10st =
    ([2, 2, 1, 0],
      { waterMap := [0, 0, 0, 99 / 100]
        sedimentMap := [0, 0, 0, 0]
        flowMap := [0, 0, 0, 0]
        flowDirectionMap := [(0, 1), (0, 0), (1, 0), (0, 0)]
        heightDeltaMap := [0, 0, 0, 0]
        cumulativeErosionMap := [0, 0, 0, 0]
        persistentFlowMap := [0, 0, 0, 0] }) := by
  unfold step c10st
  dsimp only
  simp only [List.map_cons, List.map_nil]
  rw [C10_aux1, C10_flow, C10_erosion, C10_evap]
  norm_num [updateCumulative, updatePersistentFlow, applyChangesList]

/-- Claim C10 counterexample: the routing skip tests the *current* water
buffer, which already includes inflow from cells processed earlier in the same
row-major pass — not the post-rainfall amount.  On a 2×2 grid with heights
`[2, 2, 1, 0]`, no rainfall, and one unit of water on cell (0,0): cell (1,0)
(index 2) has post-rainfall water 0, far below `minWaterForFlow = 0.0001`, so
by the claim it should send nothing; but it receives cell (0,0)'s water before
its own turn and forwards it to cell (1,1) (index 3), which ends the step with
water `0.99 ≠ 0` (it could have received water from no other cell). -/
theorem C10_cex :
    (rainfallPhase c10cfg c10st.waterMap).getD 2 0 < c10cfg.minWaterForFlow ∧
      (step (fun _ => 0) c10cfg (-5) 15 2 [2, 2, 1, 0] c10st).2.waterMap.getD 3 0 =
        99 / 100 ∧
      (99 / 100 : ℚ) ≠ 0 := by
  refine ⟨?_, ?_, by norm_num⟩
  · rw [show c10st.waterMap = [1, 0, 0, 0] from rfl, C10_aux1]
    norm_num [List.getD, c10cfg, defaultErosionConfig]
  · rw [C10_step]
    norm_num [List.getD]

/-- Claim C10, amended: the cell skipped by flow routing is the one whose
water *at its turn in the pass* (post-rainfall plus inflow already received
from earlier-processed cells) is below `minWaterForFlow` — such a cell's
processing leaves every buffer untouched; likewise the erosion/deposition
phase skips a cell whose *post-flow* water is below the threshold, leaving its
height, sediment and height-delta entries unchanged; rainfall and evaporation
still apply to every cell. -/
theorem C10_skip_frame (sq : ℚ → ℚ) (cfg : ErosionConfig) (n : ℕ)
    (heights : List ℚ) (prevDirMap : List (ℚ × ℚ)) (bufs : FlowBuffers)
    (water flowMap : List ℚ) (acc : ErodeAcc)
    (effER effME minH maxH : ℚ) (row col : ℕ)
    (hflow : bufs.newWaterMap.getD (row * n + col) 0 < cfg.minWaterForFlow)
    (herode : water.getD (row * n + col) 0 < cfg.minWaterForFlow) :
    flowCell sq cfg n heights prevDirMap bufs row col = bufs ∧
      erodeCell cfg effER effME minH maxH n heights water flowMap acc row col = acc ∧
      (∀ w : List ℚ, ∀ i, i < w.length →
        (rainfallPhase cfg w).getD i 0 = w.getD i 0 + effRainfallRate cfg) ∧
      (∀ w : List ℚ, ∀ i, i < w.length →
        (evaporationPhase cfg w).getD i 0 =
          max 0 (w.getD i 0 * (1 - effEvaporationRate cfg))) := by
  refine ⟨?_, ?_, ?_, ?_⟩
  · unfold flowCell
    dsimp only
    rw [if_pos hflow]
  · unfold erodeCell
    dsimp only
    rw [if_pos herode]
  · intro w i hi
    unfold rainfallPhase
    simp [List.getD, List.getElem?_map, List.getElem?_eq_getElem hi]
  · intro w i hi
    unfold evaporationPhase
    simp [List.getD, List.getElem?_map, List.getElem?_eq_getElem hi]

theorem C10_skip_frame_witness :
    c10st.waterMap.getD 2 0 < c10cfg.minWaterForFlow ∧
      flowCell (fun _ => 0) c10cfg 2 [2, 2, 1, 0] c10st.flowDirectionMap
          ⟨c10st.waterMap, c10st.sedimentMap, c10st.flowDirectionMap, c10st.flowMap⟩
          1 0 =
        ⟨c10st.waterMap, c10st.sedimentMap, c10st.flowDirectionMap, c10st.flowMap⟩ := by
  have h := C10_skip_frame (fun _ => 0) c10cfg 2 [2, 2, 1, 0] c10st.flowDirectionMap
    ⟨c10st.waterMap, c10st.sedimentMap, c10st.flowDirectionMap, c10st.flowMap⟩
    c10st.waterMap c10st.flowMap
    ⟨c10st.sedimentMap, [], c10st.heightDeltaMap⟩ 1 1 (-5) 15 1 0
    (by norm_num [List.getD, c10cfg, c10st, defaultErosionConfig])
    (by norm_num [List.getD, c10cfg, c10st, defaultErosionConfig])
  exact ⟨by norm_num [List.getD, c10cfg, c10st, defaultErosionConfig], h.1⟩

/-! ### Generic list facts for the erosion invariants -/

theorem getD_sat {α : Type} (P : α → Prop) (l : List α) (k : ℕ) (d : α)
    (hl : ∀ x ∈ l, P x) (hd : P d) : P (l.getD k d) := by
  rw [List.getD_eq_getElem?_getD]
  cases h : l[k]? with
  | none => simpa using hd
  | some v => simpa using hl v (List.getElem?_mem h)

theorem set_sat {α : Type} (P : α → Prop) (l : List α) (i : ℕ) (v : α)
    (hl : ∀ x ∈ l, P x) (hv : P v) : ∀ x ∈ l.set i v, P x := by
  intro x hx
  rcases List.mem_or_eq_of_mem_set hx with h | rfl
  · exact hl x h
  · exact hv

theorem getD_mem_of_lt {α : Type} (l : List α) (k : ℕ) (d : α) (h : k < l.length) :
    l.getD k d ∈ l := by
  rw [List.getD_eq_getElem l d h]
  exact List.getElem_mem h

theorem sum_set_getD (l : List ℚ) (i : ℕ) (v : ℚ) (h : i < l.length) :
    (l.set i v).sum = l.sum + v - l.getD i 0 := by
  induction l generalizing i with
  | nil => simp at h
  | cons a t ih =>
    cases i with
    | zero => simp [List.set]; ring
    | succ k =>
      simp only [List.set, List.sum_cons, List.getD_cons_succ]
      rw [ih k (by simpa using h)]
      ring

theorem lookup_mem {β : Type} (l : List (ℕ × β)) (k : ℕ) (v : β)
    (h : l.lookup k = some v) : (k, v) ∈ l := by
  induction l with
  | nil => simp [List.lookup] at h
  | cons p t ih =>
    obtain ⟨a, b⟩ := p
    by_cases hk : k = a
    · subst hk
      simp [List.lookup] at h
      simp [h]
    · have hb : (k == a) = false := beq_eq_false_iff_ne.mpr hk
      rw [List.lookup, hb] at h
      exact List.mem_cons_of_mem _ (ih h)

theorem zip_map_self {α β : Type} (l : List α) (f : α → β) :
    l.zip (l.map f) = l.map (fun a => (a, f a)) := by
  induction l with
  | nil => rfl
  | cons a t ih => simp [ih]

theorem applyChangesList_sat {α : Type} (P : α → Prop) (hm : List α)
    (changes : List (ℕ × α)) (hl : ∀ x ∈ hm, P x) (hc : ∀ pv ∈ changes, P pv.2) :
    ∀ x ∈ applyChangesList hm changes, P x := by
  induction changes generalizing hm with
  | nil => exact hl
  | cons c cs ih =>
    rw [applyChangesList, List.foldl_cons]
    exact ih (hm.set c.1 c.2)
      (set_sat P hm c.1 c.2 hl (hc c (List.mem_cons_self _ _)))
      (fun pv hpv => hc pv (List.mem_cons_of_mem _ hpv))

/-! ### Cell enumeration and neighbor indices -/

theorem cellList_index_map (n : ℕ) :
    (cellList n).map (fun rc => rc.1 * n + rc.2) = List.range (n * n) := by
  suffices h : ∀ k : ℕ,
      (List.range k).flatMap (fun row => (List.range n).map (fun col => row * n + col)) =
        List.range' 0 (k * n) by
    unfold cellList
    rw [List.map_flatMap, List.range_eq_range' (n * n), ← h n]
    simp [List.map_map, Function.comp_def]
  intro k
  induction k with
  | zero => simp
  | succ m ih =>
    rw [List.range_succ, List.flatMap_append, ih]
    have h1 : (List.range n).map (fun col => m * n + col) = List.range' (m * n) n :=
      (List.range'_eq_map_range (m * n) n).symm
    have h2 := List.range'_append 0 (m * n) n 1
    rw [show (0 : ℕ) + 1 * (m * n) = m * n by ring] at h2
    simp only [List.flatMap_cons, List.flatMap_nil, List.append_nil, h1]
    rw [h2, show n + m * n = (m + 1) * n by ring]

theorem cellList_index_nodup (n : ℕ) :
    ((cellList n).map (fun rc => rc.1 * n + rc.2)).Nodup := by
  rw [cellList_index_map]
  exact List.nodup_range _

theorem nb_dir_abs (n row col : ℕ) (nb : Neighbor) (hnb : nb ∈ neighborsOf n row col) :
    |nb.dirX| + |nb.dirZ| ≤ 1 := by
  fin_cases hnb <;> norm_num

theorem nb_index_ne (n row col : ℕ) (nb : Neighbor) (hnb : nb ∈ neighborsOf n row col)
    (hin : nbInBounds n nb) (hr : row < n) (hc : col < n) :
    nb.index.toNat ≠ row * n + col := by
  obtain ⟨heq, -⟩ := nb_index_toNat n row col nb hnb hin
  intro hcontra
  have hz : nb.index = ((row * n + col : ℕ) : ℤ) := by rw [← heq, hcontra]
  have hn1 : (1 : ℤ) ≤ (n : ℤ) := by exact_mod_cast Nat.one_le_iff_ne_zero.mpr (by omega)
  fin_cases hnb <;> (push_cast at hz; nlinarith [hz, hn1])

/-! ### Nonnegativity through flow routing -/

theorem slopeTo_nonneg (cfg : ErosionConfig) (heights : List ℚ) (n : ℕ) (height : ℚ)
    (prevDir : ℚ × ℚ) (nb : Neighbor)
    (hms : 0 ≤ cfg.minSlopeForFlow) (hfi : cfg.flowInertia ≤ 1)
    (hp1 : |prevDir.1| ≤ 1) (hp2 : |prevDir.2| ≤ 1)
    (hdir : |nb.dirX| + |nb.dirZ| ≤ 1) :
    0 ≤ slopeTo cfg heights n height prevDir nb := by
  unfold slopeTo
  dsimp only
  split
  · split
    · rename_i hsl
      rw [gt_iff_lt] at hsl
      have hs0 : 0 < (height - heights.getD nb.index.toNat 0) / cfg.cellSize :=
        lt_of_le_of_lt hms hsl
      split
      · rename_i hfi0
        have hd : |prevDir.1 * nb.dirX + prevDir.2 * nb.dirZ| ≤ 1 := by
          calc |prevDir.1 * nb.dirX + prevDir.2 * nb.dirZ|
              ≤ |prevDir.1 * nb.dirX| + |prevDir.2 * nb.dirZ| := abs_add _ _
            _ = |prevDir.1| * |nb.dirX| + |prevDir.2| * |nb.dirZ| := by
                rw [abs_mul, abs_mul]
            _ ≤ 1 * |nb.dirX| + 1 * |nb.dirZ| := by
                have h1 := abs_nonneg nb.dirX
                have h2 := abs_nonneg nb.dirZ
                have := mul_le_mul_of_nonneg_right hp1 h1
                have := mul_le_mul_of_nonneg_right hp2 h2
                linarith
            _ = |nb.dirX| + |nb.dirZ| := by ring
            _ ≤ 1 := hdir
        have hb := abs_le.mp hd
        have hfac : (0 : ℚ) ≤
            1 + (prevDir.1 * nb.dirX + prevDir.2 * nb.dirZ) * cfg.flowInertia := by
          have h1 := mul_le_mul_of_nonneg_right hb.1 hfi0.le
          nlinarith
        nlinarith [mul_nonneg hs0.le hfac]
      · simpa using hs0.le
    · exact le_refl 0
  · exact le_refl 0

theorem slopeTo_pos_inBounds (cfg : ErosionConfig) (heights : List ℚ) (n : ℕ)
    (height : ℚ) (prevDir : ℚ × ℚ) (nb : Neighbor)
    (h : 0 < slopeTo cfg heights n height prevDir nb) : nbInBounds n nb := by
  by_contra hn
  rw [slopeTo, if_neg hn] at h
  exact lt_irrefl 0 h

theorem distributeStep_inv (n index : ℕ) (T W S r : ℚ) (acc : FlowBuffers × ℚ)
    (p : Neighbor × ℚ)
    (hT : 0 < T) (hW : 0 ≤ W) (hS : 0 ≤ S) (hp : 0 ≤ p.2) (hr : 0 ≤ r)
    (hne : nbInBounds n p.1 → p.1.index.toNat ≠ index)
    (hw : ∀ x ∈ acc.1.newWaterMap, 0 ≤ x)
    (hwi : W * ((p.2 + r) / T) + acc.2 ≤ acc.1.newWaterMap.getD index 0)
    (hs : ∀ x ∈ acc.1.newSedimentMap, 0 ≤ x)
    (hsi : S * ((p.2 + r) / T) ≤ acc.1.newSedimentMap.getD index 0) :
    (∀ x ∈ (distributeStep n index T W S acc p).1.newWaterMap, 0 ≤ x) ∧
    W * (r / T) + (distributeStep n index T W S acc p).2 ≤
      (distributeStep n index T W S acc p).1.newWaterMap.getD index 0 ∧
    (∀ x ∈ (distributeStep n index T W S acc p).1.newSedimentMap, 0 ≤ x) ∧
    S * (r / T) ≤ (distributeStep n index T W S acc p).1.newSedimentMap.getD index 0 ∧
    (distributeStep n index T W S acc p).1.flowMap = acc.1.flowMap := by
  have hmono : ∀ c : ℚ, 0 ≤ c → c * (r / T) ≤ c * ((p.2 + r) / T) := by
    intro c hc
    have h1 : r / T ≤ (p.2 + r) / T := by
      gcongr
      linarith
    exact mul_le_mul_of_nonneg_left h1 hc
  unfold distributeStep
  dsimp only
  split
  · rename_i hps
    split
    · rename_i hib
      dsimp only
      have hne' := hne hib
      have hflow : 0 ≤ W * (p.2 / T) := by positivity
      have hsf : 0 ≤ S * (p.2 / T) := by positivity
      refine ⟨?_, ?_, ?_, ?_, rfl⟩
      · exact set_sat _ _ _ _ hw
          (add_nonneg (getD_sat _ _ _ _ hw le_rfl) hflow)
      · rw [getD_set]
        rw [if_neg (by intro hcon; exact hne' hcon.1)]
        have : W * ((p.2 + r) / T) = W * (p.2 / T) + W * (r / T) := by
          rw [add_div, mul_add]
        linarith
      · split
        · rename_i hwpos
          apply set_sat
          · apply set_sat _ _ _ _ hs
            exact add_nonneg (getD_sat _ _ _ _ hs le_rfl) hsf
          · rw [getD_set, if_neg (by intro hcon; exact hne' hcon.1)]
            have : S * ((p.2 + r) / T) = S * (p.2 / T) + S * (r / T) := by
              rw [add_div, mul_add]
            have hrT : 0 ≤ S * (r / T) := by positivity
            linarith
        · exact hs
      · split
        · rename_i hwpos
          rw [getD_set]
          split
          · rename_i hcond
            rw [getD_set, if_neg (by intro hcon; exact hne' hcon.1)]
            have : S * ((p.2 + r) / T) = S * (p.2 / T) + S * (r / T) := by
              rw [add_div, mul_add]
            linarith
          · rw [getD_set, if_neg (by intro hcon; exact hne' hcon.1)]
            calc S * (r / T) ≤ S * ((p.2 + r) / T) := hmono S hS
              _ ≤ _ := hsi
        · calc S * (r / T) ≤ S * ((p.2 + r) / T) := hmono S hS
            _ ≤ _ := hsi
    · refine ⟨hw, ?_, hs, le_trans (hmono S hS) hsi, rfl⟩
      have := hmono W hW
      linarith
  · rename_i hps
    have hp0 : p.2 = 0 := le_antisymm (not_lt.mp hps) hp
    refine ⟨hw, ?_, hs, ?_, rfl⟩
    · rw [hp0, zero_add] at hwi
      exact hwi
    · rw [hp0, zero_add] at hsi
      exact hsi

theorem distribute_fold_inv (n index : ℕ) (T W S : ℚ) (L : List (Neighbor × ℚ))
    (acc : FlowBuffers × ℚ)
    (hT : 0 < T) (hW : 0 ≤ W) (hS : 0 ≤ S)
    (hslope : ∀ p ∈ L, 0 ≤ p.2)
    (hnbi : ∀ p ∈ L, nbInBounds n p.1 → p.1.index.toNat ≠ index)
    (hw : ∀ x ∈ acc.1.newWaterMap, 0 ≤ x)
    (hwi : W * ((L.map Prod.snd).sum / T) + acc.2 ≤ acc.1.newWaterMap.getD index 0)
    (hs : ∀ x ∈ acc.1.newSedimentMap, 0 ≤ x)
    (hsi : S * ((L.map Prod.snd).sum / T) ≤ acc.1.newSedimentMap.getD index 0) :
    (∀ x ∈ (L.foldl (distributeStep n index T W S) acc).1.newWaterMap, 0 ≤ x) ∧
    (L.foldl (distributeStep n index T W S) acc).2 ≤
      (L.foldl (distributeStep n index T W S) acc).1.newWaterMap.getD index 0 ∧
    (∀ x ∈ (L.foldl (distributeStep n index T W S) acc).1.newSedimentMap, 0 ≤ x) ∧
    (L.foldl (distributeStep n index T W S) acc).1.flowMap = acc.1.flowMap := by
  induction L generalizing acc with
  | nil =>
    refine ⟨hw, ?_, hs, rfl⟩
    simp only [List.map_nil, List.sum_nil, zero_div, mul_zero, zero_add] at hwi
    exact hwi
  | cons p L ih =>
    simp only [List.map_cons, List.sum_cons] at hwi hsi
    have hrest : 0 ≤ (L.map Prod.snd).sum :=
      List.sum_nonneg (by
        intro x hx
        obtain ⟨q, hq, rfl⟩ := List.mem_map.mp hx
        exact hslope q (List.mem_cons_of_mem _ hq))
    have hstep := distributeStep_inv n index T W S ((L.map Prod.snd).sum) acc p hT hW hS
      (hslope p (List.mem_cons_self _ _)) hrest
      (hnbi p (List.mem_cons_self _ _)) hw hwi hs hsi
    rw [List.foldl_cons]
    have hout := ih (distributeStep n index T W S acc p)
      (fun q hq => hslope q (List.mem_cons_of_mem _ hq))
      (fun q hq => hnbi q (List.mem_cons_of_mem _ hq))
      hstep.1 (by linarith [hstep.2.1]) hstep.2.2.1 hstep.2.2.2.1
    exact ⟨hout.1, hout.2.1, hout.2.2.1, hout.2.2.2.trans hstep.2.2.2.2⟩

theorem flowCell_nonneg (sq : ℚ → ℚ) (cfg : ErosionConfig) (n : ℕ) (heights : List ℚ)
    (pdm : List (ℚ × ℚ)) (bufs : FlowBuffers) (row col : ℕ)
    (hsq : ∀ x, 0 ≤ x → 0 ≤ sq x)
    (hms : 0 ≤ cfg.minSlopeForFlow) (hfi : cfg.flowInertia ≤ 1)
    (hpd : ∀ p ∈ pdm, |p.1| ≤ 1 ∧ |p.2| ≤ 1)
    (hr : row < n) (hc : col < n)
    (hw : ∀ x ∈ bufs.newWaterMap, 0 ≤ x)
    (hs : ∀ x ∈ bufs.newSedimentMap, 0 ≤ x)
    (hf : ∀ x ∈ bufs.flowMap, 0 ≤ x) :
    (∀ x ∈ (flowCell sq cfg n heights pdm bufs row col).newWaterMap, 0 ≤ x) ∧
    (∀ x ∈ (flowCell sq cfg n heights pdm bufs row col).newSedimentMap, 0 ≤ x) ∧
    (∀ x ∈ (flowCell sq cfg n heights pdm bufs row col).flowMap, 0 ≤ x) := by
  have hW : 0 ≤ bufs.newWaterMap.getD (row * n + col) 0 :=
    getD_sat _ _ _ _ hw le_rfl
  have hS : 0 ≤ bufs.newSedimentMap.getD (row * n + col) 0 :=
    getD_sat _ _ _ _ hs le_rfl
  have hprev : |(pdm.getD (row * n + col) (0, 0)).1| ≤ 1 ∧
      |(pdm.getD (row * n + col) (0, 0)).2| ≤ 1 :=
    getD_sat (fun q : ℚ × ℚ => |q.1| ≤ 1 ∧ |q.2| ≤ 1) _ _ _ hpd (by norm_num)
  unfold flowCell
  dsimp only
  split
  · exact ⟨hw, hs, hf⟩
  · rw [zip_map_self]
    split
    · rename_i htot
      dsimp only
      have hL : ∀ q ∈ (neighborsOf n row col).map
          (fun nb => (nb, slopeTo cfg heights n
            (heights.getD (row * n + col) 0) (pdm.getD (row * n + col) (0, 0)) nb)),
          0 ≤ q.2 ∧ (nbInBounds n q.1 → q.1.index.toNat ≠ row * n + col) := by
        intro q hq
        obtain ⟨nb, hnb, rfl⟩ := List.mem_map.mp hq
        refine ⟨slopeTo_nonneg _ _ _ _ _ _ hms hfi hprev.1 hprev.2
          (nb_dir_abs n row col nb hnb), ?_⟩
        intro hib
        exact nb_index_ne n row col nb hnb hib hr hc
      have hsum : (((neighborsOf n row col).map
          (fun nb => (nb, slopeTo cfg heights n
            (heights.getD (row * n + col) 0) (pdm.getD (row * n + col) (0, 0)) nb))).map
            Prod.snd).sum =
          ((neighborsOf n row col).map (slopeTo cfg heights n
            (heights.getD (row * n + col) 0) (pdm.getD (row * n + col) (0, 0)))).sum := by
        rw [List.map_map]
        rfl
      have hTT : ((neighborsOf n row col).map (slopeTo cfg heights n
            (heights.getD (row * n + col) 0) (pdm.getD (row * n + col) (0, 0)))).sum /
          ((neighborsOf n row col).map (slopeTo cfg heights n
            (heights.getD (row * n + col) 0) (pdm.getD (row * n + col) (0, 0)))).sum =
          1 := div_self (ne_of_gt htot)
      have hfold := distribute_fold_inv n (row * n + col)
        (((neighborsOf n row col).map (slopeTo cfg heights n
          (heights.getD (row * n + col) 0) (pdm.getD (row * n + col) (0, 0)))).sum)
        (bufs.newWaterMap.getD (row * n + col) 0)
        (bufs.newSedimentMap.getD (row * n + col) 0)
        ((neighborsOf n row col).map
          (fun nb => (nb, slopeTo cfg heights n
            (heights.getD (row * n + col) 0) (pdm.getD (row * n + col) (0, 0)) nb)))
        (bufs, 0) htot hW hS
        (fun q hq => (hL q hq).1) (fun q hq => (hL q hq).2)
        hw (by rw [hsum, hTT]; simp) hs (by rw [hsum, hTT]; simp)
      refine ⟨?_, hfold.2.2.1, ?_⟩
      · apply set_sat _ _ _ _ hfold.1
        have := hfold.2.1
        linarith
      · rw [hfold.2.2.2]
        apply set_sat _ _ _ _ hf
        exact mul_nonneg (hsq _ hW) (div_nonneg htot.le (by norm_num))
    · refine ⟨hw, hs, set_sat _ _ _ _ hf le_rfl⟩

theorem flowFold_nonneg (sq : ℚ → ℚ) (cfg : ErosionConfig) (n : ℕ) (heights : List ℚ)
    (pdm : List (ℚ × ℚ)) (l : List (ℕ × ℕ)) (bufs : FlowBuffers)
    (hsq : ∀ x, 0 ≤ x → 0 ≤ sq x)
    (hms : 0 ≤ cfg.minSlopeForFlow) (hfi : cfg.flowInertia ≤ 1)
    (hpd : ∀ p ∈ pdm, |p.1| ≤ 1 ∧ |p.2| ≤ 1)
    (hl : ∀ rc ∈ l, rc.1 < n ∧ rc.2 < n)
    (hw : ∀ x ∈ bufs.newWaterMap, 0 ≤ x)
    (hs : ∀ x ∈ bufs.newSedimentMap, 0 ≤ x)
    (hf : ∀ x ∈ bufs.flowMap, 0 ≤ x) :
    (∀ x ∈ (l.foldl (fun b rc => flowCell sq cfg n heights pdm b rc.1 rc.2)
        bufs).newWaterMap, 0 ≤ x) ∧
    (∀ x ∈ (l.foldl (fun b rc => flowCell sq cfg n heights pdm b rc.1 rc.2)
        bufs).newSedimentMap, 0 ≤ x) ∧
    (∀ x ∈ (l.foldl (fun b rc => flowCell sq cfg n heights pdm b rc.1 rc.2)
        bufs).flowMap, 0 ≤ x) := by
  induction l generalizing bufs with
  | nil => exact ⟨hw, hs, hf⟩
  | cons rc l ih =>
    rw [List.foldl_cons]
    have hcell := flowCell_nonneg sq cfg n heights pdm bufs rc.1 rc.2 hsq hms hfi hpd
      (hl rc (List.mem_cons_self _ _)).1 (hl rc (List.mem_cons_self _ _)).2 hw hs hf
    exact ih _ (fun q hq => hl q (List.mem_cons_of_mem _ hq))
      hcell.1 hcell.2.1 hcell.2.2

theorem flowPhase_nonneg (sq : ℚ → ℚ) (cfg : ErosionConfig) (n : ℕ) (heights : List ℚ)
    (pdm : List (ℚ × ℚ)) (bufs : FlowBuffers)
    (hsq : ∀ x, 0 ≤ x → 0 ≤ sq x)
    (hms : 0 ≤ cfg.minSlopeForFlow) (hfi : cfg.flowInertia ≤ 1)
    (hpd : ∀ p ∈ pdm, |p.1| ≤ 1 ∧ |p.2| ≤ 1)
    (hw : ∀ x ∈ bufs.newWaterMap, 0 ≤ x)
    (hs : ∀ x ∈ bufs.newSedimentMap, 0 ≤ x)
    (hf : ∀ x ∈ bufs.flowMap, 0 ≤ x) :
    (∀ x ∈ (flowPhase sq cfg n heights pdm bufs).newWaterMap, 0 ≤ x) ∧
    (∀ x ∈ (flowPhase sq cfg n heights pdm bufs).newSedimentMap, 0 ≤ x) ∧
    (∀ x ∈ (flowPhase sq cfg n heights pdm bufs).flowMap, 0 ≤ x) := by
  unfold flowPhase
  exact flowFold_nonneg sq cfg n heights pdm (cellList n) bufs hsq hms hfi hpd
    (fun rc hrc => cellList_mem n rc hrc) hw hs hf

/-! ### Sediment mass conservation through flow routing -/

theorem distributeStep_sed (n index : ℕ) (T W S : ℚ) (acc : FlowBuffers × ℚ)
    (p : Neighbor × ℚ)
    (hidx : index < acc.1.newSedimentMap.length)
    (hnb : nbInBounds n p.1 → p.1.index.toNat < acc.1.newSedimentMap.length ∧
      p.1.index.toNat ≠ index) :
    (distributeStep n index T W S acc p).1.newSedimentMap.sum =
      acc.1.newSedimentMap.sum ∧
    (distributeStep n index T W S acc p).1.newSedimentMap.length =
      acc.1.newSedimentMap.length ∧
    (distributeStep n index T W S acc p).1.flowMap = acc.1.flowMap := by
  unfold distributeStep
  dsimp only
  split
  · split
    · rename_i hib
      dsimp only
      obtain ⟨hlt, hne⟩ := hnb hib
      split
      · refine ⟨?_, by simp, rfl⟩
        rw [sum_set_getD _ _ _ (by simpa using hidx),
          sum_set_getD _ _ _ (by simpa using hlt),
          getD_set, if_neg (by intro hcon; exact hne hcon.1)]
        ring
      · exact ⟨rfl, rfl, rfl⟩
    · exact ⟨rfl, rfl, rfl⟩
  · exact ⟨rfl, rfl, rfl⟩

theorem distribute_fold_sed (n index : ℕ) (T W S : ℚ) (L : List (Neighbor × ℚ))
    (acc : FlowBuffers × ℚ)
    (hidx : index < acc.1.newSedimentMap.length)
    (hnb : ∀ p ∈ L, nbInBounds n p.1 → p.1.index.toNat < acc.1.newSedimentMap.length ∧
      p.1.index.toNat ≠ index) :
    (L.foldl (distributeStep n index T W S) acc).1.newSedimentMap.sum =
      acc.1.newSedimentMap.sum ∧
    (L.foldl (distributeStep n index T W S) acc).1.newSedimentMap.length =
      acc.1.newSedimentMap.length ∧
    (L.foldl (distributeStep n index T W S) acc).1.flowMap = acc.1.flowMap := by
  induction L generalizing acc with
  | nil => exact ⟨rfl, rfl, rfl⟩
  | cons p L ih =>
    rw [List.foldl_cons]
    have hstep := distributeStep_sed n index T W S acc p hidx
      (hnb p (List.mem_cons_self _ _))
    have hout := ih (distributeStep n index T W S acc p)
      (by rw [hstep.2.1]; exact hidx)
      (by intro q hq; rw [hstep.2.1]; exact hnb q (List.mem_cons_of_mem _ hq))
    exact ⟨hout.1.trans hstep.1, hout.2.1.trans hstep.2.1,
      hout.2.2.trans hstep.2.2⟩

theorem flowCell_sed (sq : ℚ → ℚ) (cfg : ErosionConfig) (n : ℕ) (heights : List ℚ)
    (pdm : List (ℚ × ℚ)) (bufs : FlowBuffers) (row col : ℕ)
    (hr : row < n) (hc : col < n)
    (hlen : bufs.newSedimentMap.length = n * n) :
    (flowCell sq cfg n heights pdm bufs row col).newSedimentMap.sum =
      bufs.newSedimentMap.sum ∧
    (flowCell sq cfg n heights pdm bufs row col).newSedimentMap.length =
      bufs.newSedimentMap.length := by
  unfold flowCell
  dsimp only
  split
  · exact ⟨rfl, rfl⟩
  · rw [zip_map_self]
    split
    · dsimp only
      have hfold := distribute_fold_sed n (row * n + col)
        (((neighborsOf n row col).map (slopeTo cfg heights n
          (heights.getD (row * n + col) 0) (pdm.getD (row * n + col) (0, 0)))).sum)
        (bufs.newWaterMap.getD (row * n + col) 0)
        (bufs.newSedimentMap.getD (row * n + col) 0)
        ((neighborsOf n row col).map
          (fun nb => (nb, slopeTo cfg heights n
            (heights.getD (row * n + col) 0) (pdm.getD (row * n + col) (0, 0)) nb)))
        (bufs, 0)
        (by rw [hlen]; exact idx_lt_sq n row col hr hc)
        (by
          intro q hq hib
          obtain ⟨nb, hnbm, rfl⟩ := List.mem_map.mp hq
          rw [hlen]
          exact ⟨(nb_index_toNat n row col nb hnbm hib).2,
            nb_index_ne n row col nb hnbm hib hr hc⟩)
      exact ⟨hfold.1, hfold.2.1⟩
    · exact ⟨rfl, rfl⟩

theorem flowFold_sed (sq : ℚ → ℚ) (cfg : ErosionConfig) (n : ℕ) (heights : List ℚ)
    (pdm : List (ℚ × ℚ)) (l : List (ℕ × ℕ)) (bufs : FlowBuffers)
    (hl : ∀ rc ∈ l, rc.1 < n ∧ rc.2 < n)
    (hlen : bufs.newSedimentMap.length = n * n) :
    (l.foldl (fun b rc => flowCell sq cfg n heights pdm b rc.1 rc.2)
        bufs).newSedimentMap.sum = bufs.newSedimentMap.sum ∧
    (l.foldl (fun b rc => flowCell sq cfg n heights pdm b rc.1 rc.2)
        bufs).newSedimentMap.length = bufs.newSedimentMap.length := by
  induction l generalizing bufs with
  | nil => exact ⟨rfl, rfl⟩
  | cons rc l ih =>
    rw [List.foldl_cons]
    have hcell := flowCell_sed sq cfg n heights pdm bufs rc.1 rc.2
      (hl rc (List.mem_cons_self _ _)).1 (hl rc (List.mem_cons_self _ _)).2 hlen
    have hout := ih (flowCell sq cfg n heights pdm bufs rc.1 rc.2)
      (fun q hq => hl q (List.mem_cons_of_mem _ hq))
      (hcell.2.trans hlen)
    exact ⟨hout.1.trans hcell.1, hout.2.trans hcell.2⟩

theorem flowPhase_sed (sq : ℚ → ℚ) (cfg : ErosionConfig) (n : ℕ) (heights : List ℚ)
    (pdm : List (ℚ × ℚ)) (bufs : FlowBuffers)
    (hlen : bufs.newSedimentMap.length = n * n) :
    (flowPhase sq cfg n heights pdm bufs).newSedimentMap.sum =
      bufs.newSedimentMap.sum ∧
    (flowPhase sq cfg n heights pdm bufs).newSedimentMap.length =
      bufs.newSedimentMap.length := by
  unfold flowPhase
  exact flowFold_sed sq cfg n heights pdm (cellList n) bufs
    (fun rc hrc => cellList_mem n rc hrc) hlen

/-! ### The erosion/deposition phase: nonnegativity, bounds, conservation -/

theorem avgSlopeAt_nonneg (cfg : ErosionConfig) (n : ℕ) (heights : List ℚ)
    (row col : ℕ) : 0 ≤ avgSlopeAt cfg n heights row col := by
  unfold avgSlopeAt
  dsimp only
  have hsum : (0 : ℚ) ≤ ((neighborsOf n row col).map fun nb =>
      if nbInBounds n nb then
        max 0 ((heights.getD (row * n + col) 0 - heights.getD nb.index.toNat 0) /
          cfg.cellSize)
      else 0).sum := by
    apply List.sum_nonneg
    intro x hx
    obtain ⟨nb, -, rfl⟩ := List.mem_map.mp hx
    split
    · exact le_max_left 0 _
    · exact le_rfl
  split
  · exact div_nonneg hsum (Nat.cast_nonneg _)
  · exact hsum

theorem sedimentCapacityOf_nonneg (cfg : ErosionConfig) (v w avg : ℚ)
    (hv : 0 ≤ v) (hw : 0 ≤ w) (havg : 0 ≤ avg)
    (hcc : 0 ≤ cfg.capacityConstant) (hmc : 0 ≤ cfg.maxSedimentCapacity) :
    0 ≤ sedimentCapacityOf cfg v w avg := by
  unfold sedimentCapacityOf
  apply le_min
  · apply mul_nonneg (mul_nonneg (mul_nonneg hv hw) havg)
    split
    · norm_num
    · exact hcc
  · split
    · norm_num
    · exact hmc

theorem rainfallPhase_nonneg (cfg : ErosionConfig) (w : List ℚ)
    (hw : ∀ x ∈ w, 0 ≤ x) (hrr : 0 ≤ cfg.rainfallRate) :
    ∀ x ∈ rainfallPhase cfg w, 0 ≤ x := by
  intro x hx
  obtain ⟨a, ha, rfl⟩ := List.mem_map.mp hx
  have heff : 0 ≤ effRainfallRate cfg := by
    unfold effRainfallRate
    split
    · exact mul_nonneg hrr (by norm_num)
    · exact hrr
  exact add_nonneg (hw a ha) heff

theorem evaporationPhase_nonneg (cfg : ErosionConfig) (w : List ℚ) :
    ∀ x ∈ evaporationPhase cfg w, 0 ≤ x := by
  intro x hx
  obtain ⟨a, ha, rfl⟩ := List.mem_map.mp hx
  exact le_max_left 0 _

theorem map_zero_getD (l : List ℚ) (k : ℕ) :
    (l.map (fun _ => (0 : ℚ))).getD k 0 = 0 :=
  getD_sat (fun x => x = 0) _ _ _
    (by
      intro x hx
      obtain ⟨a, -, rfl⟩ := List.mem_map.mp hx
      rfl)
    rfl

theorem erodeCell_sed_nonneg (cfg : ErosionConfig) (effER effME minH maxH : ℚ)
    (n : ℕ) (heights water flow : List ℚ) (acc : ErodeAcc) (row col : ℕ)
    (hs : ∀ x ∈ acc.newSedimentMap, 0 ≤ x) :
    ∀ x ∈ (erodeCell cfg effER effME minH maxH n heights water flow
      acc row col).newSedimentMap, 0 ≤ x := by
  have hS := getD_sat (fun x : ℚ => 0 ≤ x) acc.newSedimentMap (row * n + col) 0 hs le_rfl
  unfold erodeCell
  dsimp only
  split
  · exact hs
  · split
    · split
      · rename_i hero
        apply set_sat _ _ _ _ hs
        have h4 : (0 : ℚ) < 0.0001 := by norm_num
        dsimp only at hS
        linarith
      · exact hs
    · split
      · split
        · apply set_sat _ _ _ _ hs
          exact le_max_left 0 _
        · exact hs
      · exact hs

theorem erodeFold_sed_nonneg (cfg : ErosionConfig) (effER effME minH maxH : ℚ)
    (n : ℕ) (heights water flow : List ℚ) (l : List (ℕ × ℕ)) (acc : ErodeAcc)
    (hs : ∀ x ∈ acc.newSedimentMap, 0 ≤ x) :
    ∀ x ∈ (l.foldl (fun a rc => erodeCell cfg effER effME minH maxH n heights
      water flow a rc.1 rc.2) acc).newSedimentMap, 0 ≤ x := by
  induction l generalizing acc with
  | nil => exact hs
  | cons rc l ih =>
    rw [List.foldl_cons]
    exact ih _ (erodeCell_sed_nonneg cfg effER effME minH maxH n heights water flow
      acc rc.1 rc.2 hs)

theorem erodeCell_bounds (cfg : ErosionConfig) (effER effME minH maxH : ℚ)
    (n : ℕ) (heights water flow : List ℚ) (acc : ErodeAcc) (row col : ℕ)
    (hmm : minH ≤ maxH) (hlen : heights.length = n * n)
    (hb : ∀ x ∈ heights, minH ≤ x ∧ x ≤ maxH)
    (hr : row < n) (hc : col < n)
    (hhc : ∀ pv ∈ acc.heightChanges, minH ≤ pv.2 ∧ pv.2 ≤ maxH) :
    ∀ pv ∈ (erodeCell cfg effER effME minH maxH n heights water flow
      acc row col).heightChanges, minH ≤ pv.2 ∧ pv.2 ≤ maxH := by
  have hidx : row * n + col < n * n := idx_lt_sq n row col hr hc
  have hcur : minH ≤ ((acc.heightChanges.lookup (row * n + col)).getD
        (heights.getD (row * n + col) 0)) ∧
      ((acc.heightChanges.lookup (row * n + col)).getD
        (heights.getD (row * n + col) 0)) ≤ maxH := by
    cases hl : acc.heightChanges.lookup (row * n + col) with
    | none =>
      simp only [Option.getD_none]
      exact hb _ (getD_mem_of_lt _ _ _ (by rw [hlen]; exact hidx))
    | some v =>
      simp only [Option.getD_some]
      exact hhc (row * n + col, v) (lookup_mem _ _ _ hl)
  have h4 : (0 : ℚ) < 0.0001 := by norm_num
  unfold erodeCell
  dsimp only
  split
  · exact hhc
  · split
    · split
      · rename_i hero
        intro pv hpv
        rcases List.mem_append.mp hpv with hold | hnew
        · exact hhc pv hold
        · rcases List.mem_singleton.mp hnew with rfl
          exact ⟨le_max_right _ _, max_le (by linarith [hcur.2]) hmm⟩
      · exact hhc
    · split
      · split
        · rename_i hdep
          intro pv hpv
          rcases List.mem_append.mp hpv with hold | hnew
          · exact hhc pv hold
          · rcases List.mem_singleton.mp hnew with rfl
            exact ⟨le_min (by linarith [hcur.1]) hmm, min_le_right _ _⟩
        · exact hhc
      · exact hhc

theorem erodeFold_bounds (cfg : ErosionConfig) (effER effME minH maxH : ℚ)
    (n : ℕ) (heights water flow : List ℚ) (l : List (ℕ × ℕ)) (acc : ErodeAcc)
    (hmm : minH ≤ maxH) (hlen : heights.length = n * n)
    (hb : ∀ x ∈ heights, minH ≤ x ∧ x ≤ maxH)
    (hl : ∀ rc ∈ l, rc.1 < n ∧ rc.2 < n)
    (hhc : ∀ pv ∈ acc.heightChanges, minH ≤ pv.2 ∧ pv.2 ≤ maxH) :
    ∀ pv ∈ (l.foldl (fun a rc => erodeCell cfg effER effME minH maxH n heights
      water flow a rc.1 rc.2) acc).heightChanges, minH ≤ pv.2 ∧ pv.2 ≤ maxH := by
  induction l generalizing acc with
  | nil => exact hhc
  | cons rc l ih =>
    rw [List.foldl_cons]
    exact ih _ (fun q hq => hl q (List.mem_cons_of_mem _ hq))
      (erodeCell_bounds cfg effER effME minH maxH n heights water flow acc rc.1 rc.2
        hmm hlen hb (hl rc (List.mem_cons_self _ _)).1
        (hl rc (List.mem_cons_self _ _)).2 hhc)

theorem erodeCell_conserve (cfg : ErosionConfig) (effER effME minH maxH : ℚ)
    (n : ℕ) (heights water flow : List ℚ) (acc : ErodeAcc) (row col : ℕ)
    (hcc : 0 ≤ cfg.capacityConstant) (hmc : 0 ≤ cfg.maxSedimentCapacity)
    (hdr0 : 0 ≤ cfg.depositionRate) (hdr1 : cfg.depositionRate ≤ 1)
    (hwat : ∀ x ∈ water, 0 ≤ x) (hflo : ∀ x ∈ flow, 0 ≤ x)
    (hr : row < n) (hc : col < n)
    (hslen : acc.newSedimentMap.length = n * n)
    (hdlen : acc.heightDeltaMap.length = n * n)
    (hs : ∀ x ∈ acc.newSedimentMap, 0 ≤ x)
    (hd0 : acc.heightDeltaMap.getD (row * n + col) 0 = 0) :
    (erodeCell cfg effER effME minH maxH n heights water flow
        acc row col).heightDeltaMap.sum +
      (erodeCell cfg effER effME minH maxH n heights water flow
        acc row col).newSedimentMap.sum =
      acc.heightDeltaMap.sum + acc.newSedimentMap.sum ∧
    (erodeCell cfg effER effME minH maxH n heights water flow
        acc row col).newSedimentMap.length = acc.newSedimentMap.length ∧
    (erodeCell cfg effER effME minH maxH n heights water flow
        acc row col).heightDeltaMap.length = acc.heightDeltaMap.length ∧
    (∀ k, k ≠ row * n + col →
      (erodeCell cfg effER effME minH maxH n heights water flow
        acc row col).heightDeltaMap.getD k 0 = acc.heightDeltaMap.getD k 0) ∧
    (∀ x ∈ (erodeCell cfg effER effME minH maxH n heights water flow
        acc row col).newSedimentMap, 0 ≤ x) := by
  have hidx : row * n + col < n * n := idx_lt_sq n row col hr hc
  have hcap : 0 ≤ sedimentCapacityOf cfg (flow.getD (row * n + col) 0)
      (water.getD (row * n + col) 0) (avgSlopeAt cfg n heights row col) :=
    sedimentCapacityOf_nonneg cfg _ _ _
      (getD_sat _ _ _ _ hflo le_rfl) (getD_sat _ _ _ _ hwat le_rfl)
      (avgSlopeAt_nonneg cfg n heights row col) hcc hmc
  have hS := getD_sat (fun x : ℚ => 0 ≤ x) acc.newSedimentMap (row * n + col) 0 hs le_rfl
  have h4 : (0 : ℚ) < 0.0001 := by norm_num
  unfold erodeCell
  dsimp only
  split
  · exact ⟨rfl, rfl, rfl, fun k _ => rfl, hs⟩
  · split
    · split
      · rename_i hero
        dsimp only
        refine ⟨?_, by simp, by simp, ?_, ?_⟩
        · rw [sum_set_getD _ _ _ (by rw [hdlen]; exact hidx),
            sum_set_getD _ _ _ (by rw [hslen]; exact hidx), hd0]
          ring
        · intro k hk
          rw [getD_set, if_neg (fun hcon => hk hcon.1.symm)]
        · apply set_sat _ _ _ _ hs
          linarith
      · exact ⟨rfl, rfl, rfl, fun k _ => rfl, hs⟩
    · split
      · rename_i hcaplt
        split
        · rename_i hdep
          dsimp only
          have hdle : (acc.newSedimentMap.getD (row * n + col) 0 -
              sedimentCapacityOf cfg (flow.getD (row * n + col) 0)
                (water.getD (row * n + col) 0) (avgSlopeAt cfg n heights row col)) *
              cfg.depositionRate ≤ acc.newSedimentMap.getD (row * n + col) 0 := by
            nlinarith
          have hmax : max 0 (acc.newSedimentMap.getD (row * n + col) 0 -
              (acc.newSedimentMap.getD (row * n + col) 0 -
                sedimentCapacityOf cfg (flow.getD (row * n + col) 0)
                  (water.getD (row * n + col) 0) (avgSlopeAt cfg n heights row col)) *
                cfg.depositionRate) =
              acc.newSedimentMap.getD (row * n + col) 0 -
              (acc.newSedimentMap.getD (row * n + col) 0 -
                sedimentCapacityOf cfg (flow.getD (row * n + col) 0)
                  (water.getD (row * n + col) 0) (avgSlopeAt cfg n heights row col)) *
                cfg.depositionRate :=
            max_eq_right (by linarith)
          rw [hmax]
          refine ⟨?_, by simp, by simp, ?_, ?_⟩
          · rw [sum_set_getD _ _ _ (by rw [hdlen]; exact hidx),
              sum_set_getD _ _ _ (by rw [hslen]; exact hidx), hd0]
            ring
          · intro k hk
            rw [getD_set, if_neg (fun hcon => hk hcon.1.symm)]
          · apply set_sat _ _ _ _ hs
            linarith
        · exact ⟨rfl, rfl, rfl, fun k _ => rfl, hs⟩
      · exact ⟨rfl, rfl, rfl, fun k _ => rfl, hs⟩

theorem erodeFold_conserve (cfg : ErosionConfig) (effER effME minH maxH : ℚ)
    (n : ℕ) (heights water flow : List ℚ) (l : List (ℕ × ℕ)) (acc : ErodeAcc)
    (hcc : 0 ≤ cfg.capacityConstant) (hmc : 0 ≤ cfg.maxSedimentCapacity)
    (hdr0 : 0 ≤ cfg.depositionRate) (hdr1 : cfg.depositionRate ≤ 1)
    (hwat : ∀ x ∈ water, 0 ≤ x) (hflo : ∀ x ∈ flow, 0 ≤ x)
    (hl : ∀ rc ∈ l, rc.1 < n ∧ rc.2 < n)
    (hnd : (l.map (fun rc => rc.1 * n + rc.2)).Nodup)
    (hslen : acc.newSedimentMap.length = n * n)
    (hdlen : acc.heightDeltaMap.length = n * n)
    (hs : ∀ x ∈ acc.newSedimentMap, 0 ≤ x)
    (hd0 : ∀ rc ∈ l, acc.heightDeltaMap.getD (rc.1 * n + rc.2) 0 = 0) :
    (l.foldl (fun a rc => erodeCell cfg effER effME minH maxH n heights
        water flow a rc.1 rc.2) acc).heightDeltaMap.sum +
      (l.foldl (fun a rc => erodeCell cfg effER effME minH maxH n heights
        water flow a rc.1 rc.2) acc).newSedimentMap.sum =
      acc.heightDeltaMap.sum + acc.newSedimentMap.sum := by
  induction l generalizing acc with
  | nil => rfl
  | cons rc l ih =>
    rw [List.foldl_cons]
    have hcell := erodeCell_conserve cfg effER effME minH maxH n heights water flow
      acc rc.1 rc.2 hcc hmc hdr0 hdr1 hwat hflo
      (hl rc (List.mem_cons_self _ _)).1 (hl rc (List.mem_cons_self _ _)).2
      hslen hdlen hs (hd0 rc (List.mem_cons_self _ _))
    have hhead : rc.1 * n + rc.2 ∉ l.map (fun q => q.1 * n + q.2) :=
      (List.nodup_cons.mp (by simpa using hnd)).1
    have hout := ih (erodeCell cfg effER effME minH maxH n heights water flow
        acc rc.1 rc.2)
      (fun q hq => hl q (List.mem_cons_of_mem _ hq))
      ((List.nodup_cons.mp (by simpa using hnd)).2)
      (hcell.2.1.trans hslen) (hcell.2.2.1.trans hdlen) hcell.2.2.2.2
      (by
        intro q hq
        rw [hcell.2.2.2.1 (q.1 * n + q.2)
          (by
            intro hcon
            exact hhead (hcon ▸ List.mem_map_of_mem _ hq))]
        exact hd0 q (List.mem_cons_of_mem _ hq))
    linarith [hout, hcell.1]

/-- Claim C5: after one `step()` starting from nonnegative water, sediment and
flow maps (with the sanity conditions the shipped config satisfies: nonnegative
rainfall rate and minimum slope, flow inertia at most 1, and flow directions of
at most unit components), every entry of the resulting water and sediment maps
is nonnegative; the `max(0,·)` clamps in deposition and evaporation discharge
the negative intermediates. -/
theorem C5_maps_nonneg (sq : ℚ → ℚ) (cfg : ErosionConfig) (minH maxH : ℚ) (n : ℕ)
    (heights : List ℚ) (st : ErosionState)
    (hsq : ∀ x, 0 ≤ x → 0 ≤ sq x)
    (hrr : 0 ≤ cfg.rainfallRate)
    (hms : 0 ≤ cfg.minSlopeForFlow)
    (hfi : cfg.flowInertia ≤ 1)
    (hw : ∀ x ∈ st.waterMap, 0 ≤ x)
    (hs : ∀ x ∈ st.sedimentMap, 0 ≤ x)
    (hf : ∀ x ∈ st.flowMap, 0 ≤ x)
    (hpd : ∀ p ∈ st.flowDirectionMap, |p.1| ≤ 1 ∧ |p.2| ≤ 1) :
    (∀ x ∈ (step sq cfg minH maxH n heights st).2.waterMap, 0 ≤ x) ∧
    (∀ x ∈ (step sq cfg minH maxH n heights st).2.sedimentMap, 0 ≤ x) := by
  unfold step
  dsimp only
  constructor
  · exact evaporationPhase_nonneg cfg _
  · have hflow := flowPhase_nonneg sq cfg n heights st.flowDirectionMap
      ⟨rainfallPhase cfg st.waterMap, st.sedimentMap, st.flowDirectionMap, st.flowMap⟩
      hsq hms hfi hpd (rainfallPhase_nonneg cfg st.waterMap hw hrr) hs hf
    unfold erosionPhase
    exact erodeFold_sed_nonneg cfg _ _ minH maxH n heights _ _ (cellList n) _ hflow.2.1

theorem C5_maps_nonneg_witness :
    (∀ x ∈ (step (fun _ => 0) defaultErosionConfig (-5) 15 1 [0]
      (ErosionState.init 1)).2.waterMap, 0 ≤ x) ∧
    (∀ x ∈ (step (fun _ => 0) defaultErosionConfig (-5) 15 1 [0]
      (ErosionState.init 1)).2.sedimentMap, 0 ≤ x) :=
  C5_maps_nonneg (fun _ => 0) defaultErosionConfig (-5) 15 1 [0] (ErosionState.init 1)
    (fun _ _ => le_refl 0)
    (by norm_num [defaultErosionConfig])
    (by norm_num [defaultErosionConfig])
    (by norm_num [defaultErosionConfig])
    (fun x hx => (List.eq_of_mem_replicate
      (show x ∈ List.replicate 1 (0 : ℚ) from hx)).symm.le)
    (fun x hx => (List.eq_of_mem_replicate
      (show x ∈ List.replicate 1 (0 : ℚ) from hx)).symm.le)
    (fun x hx => (List.eq_of_mem_replicate
      (show x ∈ List.replicate 1 (0 : ℚ) from hx)).symm.le)
    (fun p hp => by
      rw [List.eq_of_mem_replicate (show p ∈ List.replicate 1 ((0 : ℚ), (0 : ℚ)) from hp)]
      norm_num)

/-- Claim C4: mass conservation across one `step()`.  The `heightDeltaMap` of
the step sums to exactly the net sediment mass moved out of the sediment map:
`Σ heightDeltaMap + Σ sedimentMap' = Σ sedimentMap`.  Flow routing moves
sediment only between in-range cells (conserving the sum), each erosion entry
`-erosion` matches the `+erosion` credited to sediment even when the height
write is clamped at `minHeight`, and each deposition entry `+deposit` matches
the `-deposit` debit (never clamped below zero because the capacity is
nonnegative and the deposition rate is in `[0, 1]`), even when the height write
is clamped at `maxHeight`. -/
theorem C4_mass_conservation (sq : ℚ → ℚ) (cfg : ErosionConfig) (minH maxH : ℚ)
    (n : ℕ) (heights : List ℚ) (st : ErosionState)
    (hsq : ∀ x, 0 ≤ x → 0 ≤ sq x)
    (hrr : 0 ≤ cfg.rainfallRate)
    (hms : 0 ≤ cfg.minSlopeForFlow)
    (hfi : cfg.flowInertia ≤ 1)
    (hcc : 0 ≤ cfg.capacityConstant) (hmc : 0 ≤ cfg.maxSedimentCapacity)
    (hdr0 : 0 ≤ cfg.depositionRate) (hdr1 : cfg.depositionRate ≤ 1)
    (hw : ∀ x ∈ st.waterMap, 0 ≤ x)
    (hs : ∀ x ∈ st.sedimentMap, 0 ≤ x)
    (hf : ∀ x ∈ st.flowMap, 0 ≤ x)
    (hpd : ∀ p ∈ st.flowDirectionMap, |p.1| ≤ 1 ∧ |p.2| ≤ 1)
    (hslen : st.sedimentMap.length = n * n)
    (hdlen : st.heightDeltaMap.length = n * n) :
    (step sq cfg minH maxH n heights st).2.heightDeltaMap.sum +
      (step sq cfg minH maxH n heights st).2.sedimentMap.sum =
      st.sedimentMap.sum := by
  unfold step
  dsimp only
  have hflowN := flowPhase_nonneg sq cfg n heights st.flowDirectionMap
    ⟨rainfallPhase cfg st.waterMap, st.sedimentMap, st.flowDirectionMap, st.flowMap⟩
    hsq hms hfi hpd (rainfallPhase_nonneg cfg st.waterMap hw hrr) hs hf
  have hflowS := flowPhase_sed sq cfg n heights st.flowDirectionMap
    ⟨rainfallPhase cfg st.waterMap, st.sedimentMap, st.flowDirectionMap, st.flowMap⟩
    hslen
  unfold erosionPhase
  have hcons := erodeFold_conserve cfg (effErosionRateOf cfg) (effMaxErosionOf cfg)
    minH maxH n heights
    (flowPhase sq cfg n heights st.flowDirectionMap
      ⟨rainfallPhase cfg st.waterMap, st.sedimentMap, st.flowDirectionMap,
        st.flowMap⟩).newWaterMap
    (flowPhase sq cfg n heights st.flowDirectionMap
      ⟨rainfallPhase cfg st.waterMap, st.sedimentMap, st.flowDirectionMap,
        st.flowMap⟩).flowMap
    (cellList n)
    ⟨(flowPhase sq cfg n heights st.flowDirectionMap
        ⟨rainfallPhase cfg st.waterMap, st.sedimentMap, st.flowDirectionMap,
          st.flowMap⟩).newSedimentMap, [],
      st.heightDeltaMap.map (fun _ => 0)⟩
    hcc hmc hdr0 hdr1 hflowN.1 hflowN.2.2
    (fun rc h => cellList_mem n rc h) (cellList_index_nodup n)
    (by dsimp only; exact hflowS.2.trans hslen)
    (by dsimp only; rw [List.length_map]; exact hdlen)
    hflowN.2.1
    (fun rc _ => map_zero_getD _ _)
  dsimp only at hcons
  have hzero : (st.heightDeltaMap.map (fun _ => (0 : ℚ))).sum = 0 := by
    simp
  rw [hcons, hzero, zero_add, hflowS.1]

theorem C4_mass_conservation_witness :
    (step (fun _ => 0) defaultErosionConfig (-5) 15 1 [0]
        (ErosionState.init 1)).2.heightDeltaMap.sum +
      (step (fun _ => 0) defaultErosionConfig (-5) 15 1 [0]
        (ErosionState.init 1)).2.sedimentMap.sum =
      (ErosionState.init 1).sedimentMap.sum :=
  C4_mass_conservation (fun _ => 0) defaultErosionConfig (-5) 15 1 [0]
    (ErosionState.init 1)
    (fun _ _ => le_refl 0)
    (by norm_num [defaultErosionConfig])
    (by norm_num [defaultErosionConfig])
    (by norm_num [defaultErosionConfig])
    (by norm_num [defaultErosionConfig])
    (by norm_num [defaultErosionConfig])
    (by norm_num [defaultErosionConfig])
    (by norm_num [defaultErosionConfig])
    (fun x hx => (List.eq_of_mem_replicate
      (show x ∈ List.replicate 1 (0 : ℚ) from hx)).symm.le)
    (fun x hx => (List.eq_of_mem_replicate
      (show x ∈ List.replicate 1 (0 : ℚ) from hx)).symm.le)
    (fun x hx => (List.eq_of_mem_replicate
      (show x ∈ List.replicate 1 (0 : ℚ) from hx)).symm.le)
    (fun p hp => by
      rw [List.eq_of_mem_replicate (show p ∈ List.replicate 1 ((0 : ℚ), (0 : ℚ)) from hp)]
      norm_num)
    rfl rfl

/-- Claim C1, amended: the brush operations do *not* clamp to the configured
height bounds (see the counterexample), but one erosion `step()` does preserve
them: starting from a full `gridSize²` height field with every cell in
`[minHeight, maxHeight]` and `minHeight ≤ maxHeight`, every cell of the
heightmap returned by `step()` is still within the bounds — erosion writes
`max(h - erosion, minHeight)` with `erosion > 0.0001` and deposition writes
`min(h + deposit, maxHeight)` with `deposit > 0.0001`. -/
theorem C1_step_bounds (sq : ℚ → ℚ) (cfg : ErosionConfig) (minH maxH : ℚ) (n : ℕ)
    (heights : List ℚ) (st : ErosionState)
    (hmm : minH ≤ maxH) (hlen : heights.length = n * n)
    (hb : ∀ x ∈ heights, minH ≤ x ∧ x ≤ maxH) :
    ∀ x ∈ (step sq cfg minH maxH n heights st).1, minH ≤ x ∧ x ≤ maxH := by
  unfold step
  dsimp only
  apply applyChangesList_sat _ heights _ hb
  unfold erosionPhase
  exact erodeFold_bounds cfg _ _ minH maxH n heights _ _ (cellList n) _ hmm hlen hb
    (fun rc h => cellList_mem n rc h) (by intro pv hpv; simp at hpv)

theorem C1_step_bounds_witness :
    (-5 : ℚ) ≤ (step (fun _ => 0) defaultErosionConfig (-5) 15 1 [0]
        (ErosionState.init 1)).1.getD 0 0 ∧
      (step (fun _ => 0) defaultErosionConfig (-5) 15 1 [0]
        (ErosionState.init 1)).1.getD 0 0 ≤ 15 := by
  apply C1_step_bounds (fun _ => 0) defaultErosionConfig (-5) 15 1 [0]
    (ErosionState.init 1) (by norm_num) rfl
    (by
      intro x hx
      rw [List.mem_singleton.mp hx]
      norm_num)
  apply getD_mem_of_lt
  have hlen : (step (fun _ => 0) defaultErosionConfig (-5) 15 1 [0]
      (ErosionState.init 1)).1.length = 1 := by
    unfold step
    dsimp only
    rw [applyChangesList_length]
    rfl
  rw [hlen]
  norm_num

end Waves
